import Mathlib

set_option maxRecDepth 2048

/-!
Verification of the DeckLink playout consumer
(src/modules/decklink/consumer/decklink_consumer.cpp) against its
natural-language specification.

The development is a shallow embedding of the scheduling/buffering engine:
the `configuration` record, the `decklink_frame` adapter with its `GetBytes`
byte conversion, and the `decklink_consumer` state machine (construction,
`send`, the `ScheduledFrameCompleted` video-completion callback and the
`RenderAudioSamples` audio-render callback).  Driver calls made by the code
(ScheduleVideoFrame, ScheduleAudioSamples, BeginAudioPreroll,
EndAudioPreroll, StartScheduledPlayback) are recorded as an `Event` list so
theorems can speak about what was scheduled and in which order.  Machine
integers of the source (`long long` counters, `int` counts) are modelled as
`Int`; byte buffers as `List Nat`; 32-bit audio samples as `List Int`.
Overflow of the 64-bit scheduling counters is not reachable in any bounded
run and is not modelled.

Two pieces of the repository used by this file are not under src/ and are
modelled from the spec (their doc comments say so): the `retry_task<bool>`
pending-send primitive from common/future.h, and the `aligned_memshfl`
byte shuffle from common/memshfl.h.
-/

/-- Keyer mode of `configuration` (decklink_consumer.cpp, `enum class keyer_t`). -/
inductive keyer_t
  | internal_keyer
  | external_keyer
  | default_keyer
deriving DecidableEq, Repr

/-- Latency mode of `configuration` (decklink_consumer.cpp, `enum class latency_t`). -/
inductive latency_t
  | low_latency
  | normal_latency
  | default_latency
deriving DecidableEq, Repr

/-- The `configuration` struct of decklink_consumer.cpp (lines 55-82). -/
structure configuration where
  device_index : Int
  embedded_audio : Bool
  keyer : keyer_t
  latency : latency_t
  key_only : Bool
  base_buffer_depth : Int
deriving DecidableEq, Repr

/-- `configuration::buffer_depth` (decklink_consumer.cpp line 78-81):
`base_buffer_depth + (latency == low_latency ? 0 : 1) + (embedded_audio ? 1 : 0)`. -/
def configuration.buffer_depth (c : configuration) : Int :=
  c.base_buffer_depth + (if c.latency = latency_t.low_latency then 0 else 1) +
    (if c.embedded_audio then 1 else 0)

/-- The default-constructed `configuration` (member initialisers of lines 71-76). -/
def default_configuration : configuration :=
  ⟨1, true, keyer_t.default_keyer, latency_t.default_latency, false, 3⟩

/-- The fields of `core::video_format_desc` that decklink_consumer.cpp reads.
`fps_gt_50` stands for the one comparison `format_desc.fps > 50.0` the code
makes (line 216); the floating-point value itself is never otherwise used by
the embedded operations. -/
structure video_format_desc where
  size : Nat
  duration : Int
  time_scale : Int
  audio_channels : Nat
  audio_cadence : List Nat
  audio_sample_rate : Int
  fps_gt_50 : Bool
deriving DecidableEq, Repr

/-- An immutable source frame (`core::const_frame`): image bytes plus
interleaved 32-bit audio samples. -/
structure const_frame where
  image_data : List Nat
  audio_data : List Int
deriving DecidableEq, Repr

/-- `core::const_frame::empty()`. -/
def const_frame.empty : const_frame := ⟨[], []⟩

/-- The `decklink_frame` adapter (decklink_consumer.cpp lines 84-167): the
source frame, the key-only flag, and the lazily filled `data_` buffer. -/
structure decklink_frame where
  frame : const_frame
  key_only : Bool
  data : List Nat
deriving DecidableEq, Repr

/-- The `decklink_frame` constructor (lines 93-99): `data_` starts empty. -/
def mk_decklink_frame (frame : const_frame) (key_only : Bool) : decklink_frame :=
  ⟨frame, key_only, []⟩

/-- `std::vector::resize(n, 0)` on a byte buffer: keep the first `n` bytes,
pad with zero bytes up to length `n`. -/
def resize_zero (l : List Nat) (n : Nat) : List Nat :=
  l.take n ++ List.replicate (n - l.length) 0

/-- Modelled from the spec: `aligned_memshfl` (common/memshfl.h) is not under
src/.  Called with masks 0x0F0F0F0F, 0x0B0B0B0B, 0x07070707, 0x03030303 it
produces, per the spec's key-only description, "a byte-shuffled buffer where
every pixel's 4 lanes are replaced by its alpha byte": each 4-byte pixel
(b,g,r,a) becomes (a,a,a,a). -/
def aligned_memshfl_alpha : List Nat → List Nat
  | _b :: _g :: _r :: a :: rest => a :: a :: a :: a :: aligned_memshfl_alpha rest
  | l => l

/-- `decklink_frame::GetBytes` (lines 128-156).  Returns the adapter state
after the call (its `data_` cache) and the buffer handed to the driver.  The
source returns S_OK on every path of this pure model; the catch-all branch is
unreachable. -/
def GetBytes (fd : video_format_desc) (f : decklink_frame) : decklink_frame × List Nat :=
  if f.frame.image_data.length ≠ fd.size then
    let d := resize_zero f.data fd.size
    ({ f with data := d }, d)
  else if f.key_only then
    if f.data.isEmpty then
      let d := aligned_memshfl_alpha f.frame.image_data
      ({ f with data := d }, d)
    else (f, f.data)
  else (f, f.frame.image_data)

/-- HRESULT values the callbacks return. -/
inductive HResult
  | S_OK
  | E_FAIL
deriving DecidableEq, Repr

/-- `BMDOutputFrameCompletionResult` classification (lines 348-360):
on-time completion, displayed-late, dropped, flushed. -/
inductive BMDCompletionResult
  | completed
  | displayedLate
  | dropped
  | flushed
deriving DecidableEq, Repr

/-- Observable actions of the engine: driver calls it makes, futures it
resolves, and slot-buffer acceptances of a frame (the successful `try_push`
calls).  `scheduledVideo` records the `const_frame` wrapped into the
`decklink_frame` handed to `ScheduleVideoFrame`. -/
inductive Event
  | scheduledVideo (frame : const_frame) (ts dur scale : Int)
  | scheduledAudio (samples : List Int) (sample_frame_count : Nat) (ts rate : Int)
  | beganAudioPreroll
  | endedAudioPreroll
  | startedPlayback
  | resolvedFuture (v : Bool)
  | pushedVideoSlot (frame : const_frame)
  | pushedAudioSlot (frame : const_frame)
deriving DecidableEq, Repr

/-- The captured state of the pending `enqueue_task` lambda of `send`
(lines 468-480): the frame and the two mutable by-value captures. -/
structure PendingSend where
  frame : const_frame
  audio_ready : Bool
  video_ready : Bool
deriving DecidableEq, Repr

/-- The mutable state of `decklink_consumer` (lines 169-202): the running
flag, the two scheduling counters, the preroll counter, the two bounded slot
buffers (front = oldest), the `audio_container_` ring of retained sample
blocks, the exception latch, and the registered pending send of
`send_completion_` (none when no task is registered or the last one
completed). -/
structure ConsumerState where
  is_running : Bool
  video_scheduled : Int
  audio_scheduled : Int
  preroll_count : Int
  video_frame_buffer : List const_frame
  audio_frame_buffer : List const_frame
  audio_container : List (List Int)
  exception : Option Unit
  send_completion : Option PendingSend
deriving DecidableEq, Repr

/-- Capacity of `audio_frame_buffer_` (line 216): 2 above 50 fps, else 1. -/
def audio_capacity (fd : video_format_desc) : Nat :=
  if fd.fps_gt_50 then 2 else 1

/-- `tbb::concurrent_bounded_queue::try_push`: append at the back when below
capacity and report success, else leave the queue and report failure. -/
def try_push (cap : Nat) (f : const_frame) (buf : List const_frame) :
    Bool × List const_frame :=
  if buf.length < cap then (true, buf ++ [f]) else (false, buf)

/-- What one run of the `enqueue_task` lambda produces: its new captured
flags, the two buffers, and whether it returned an engaged optional. -/
structure EnqueueResult where
  task : PendingSend
  vbuf : List const_frame
  abuf : List const_frame
  done : Bool
deriving DecidableEq, Repr

/-- The `enqueue_task` lambda of `send` (lines 468-480): try the audio slot
unless already accepted, then the video slot unless already accepted; the
task is complete when both flags are true. -/
def enqueue_task (fd : video_format_desc) (p : PendingSend)
    (vbuf abuf : List const_frame) : EnqueueResult :=
  let ar := if p.audio_ready then (true, abuf) else try_push (audio_capacity fd) p.frame abuf
  let vr := if p.video_ready then (true, vbuf) else try_push 1 p.frame vbuf
  ⟨⟨p.frame, ar.1, vr.1⟩, vr.2, ar.2, ar.1 && vr.1⟩

/-- The slot acceptances one `enqueue_task` run performed, read off the flag
transitions: a flag that was false and is now true means the corresponding
`try_push` succeeded in this run. -/
def enqueue_events (p q : PendingSend) : List Event :=
  (if !p.audio_ready && q.audio_ready then [Event.pushedAudioSlot p.frame] else []) ++
    (if !p.video_ready && q.video_ready then [Event.pushedVideoSlot p.frame] else [])

/-- Modelled from the spec: `retry_task<bool>::try_completion` (common/future.h)
is not under src/.  Per the spec's pending-operation primitive, it re-runs the
stored task if one is registered; when the task yields a value it resolves the
associated future with it exactly once and clears the task; with no task
registered it does nothing. -/
def try_completion (fd : video_format_desc) (s : ConsumerState) :
    ConsumerState × List Event :=
  match s.send_completion with
  | none => (s, [])
  | some p =>
    let r := enqueue_task fd p s.video_frame_buffer s.audio_frame_buffer
    if r.done then
      ({ s with video_frame_buffer := r.vbuf, audio_frame_buffer := r.abuf,
                send_completion := none },
        enqueue_events p r.task ++ [Event.resolvedFuture true])
    else
      ({ s with video_frame_buffer := r.vbuf, audio_frame_buffer := r.abuf,
                send_completion := some r.task },
        enqueue_events p r.task)

/-- `boost::circular_buffer::push_back` with the given capacity: append and
drop from the front once past capacity. -/
def circular_push (cap : Nat) (l : List (List Int)) (x : List Int) : List (List Int) :=
  let l2 := l ++ [x]
  if cap < l2.length then l2.drop (l2.length - cap) else l2

/-- `decklink_consumer::schedule_next_audio` (lines 427-438): retain the block
in `audio_container_` (capacity `buffer_depth + 1`), schedule it at the
current `audio_scheduled_` timestamp, advance the counter by the block's
sample-frame count (`size() / audio_channels`). -/
def schedule_next_audio (cfg : configuration) (fd : video_format_desc)
    (audio_data : List Int) (s : ConsumerState) : ConsumerState × Event :=
  let sample_frame_count := audio_data.length / fd.audio_channels
  ({ s with
      audio_container := circular_push (cfg.buffer_depth.toNat + 1) s.audio_container audio_data,
      audio_scheduled := s.audio_scheduled + sample_frame_count },
    Event.scheduledAudio audio_data sample_frame_count s.audio_scheduled fd.audio_sample_rate)

/-- `decklink_consumer::schedule_next_video` (lines 440-450): wrap the frame
in a fresh `decklink_frame`, schedule it at the current `video_scheduled_`
timestamp with the format's duration and time scale, advance the counter by
exactly one frame duration. -/
def schedule_next_video (fd : video_format_desc) (frame : const_frame)
    (s : ConsumerState) : ConsumerState × Event :=
  ({ s with video_scheduled := s.video_scheduled + fd.duration },
    Event.scheduledVideo frame s.video_scheduled fd.duration fd.time_scale)

/-- The `while(audio_frame_buffer_.try_pop(frame))` loop of
`RenderAudioSamples` (lines 406-410): pop the oldest buffered frame, run
`send_completion_.try_completion()`, schedule the frame's audio, repeat until
the queue is empty.  The loop is not structurally recursive (a
`try_completion` may push one frame back into the queue), so it takes a fuel
argument; `RenderAudioSamples` passes `length + 1`, which
`drain_loop_drains` proves always reaches the empty-queue exit. -/
def drain_loop (cfg : configuration) (fd : video_format_desc) :
    Nat → ConsumerState → ConsumerState × List Event
  | 0, s => (s, [])
  | fuel + 1, s =>
    match s.audio_frame_buffer with
    | [] => (s, [])
    | frame :: rest =>
      let s1 := { s with audio_frame_buffer := rest }
      let r2 := try_completion fd s1
      let r3 := schedule_next_audio cfg fd frame.audio_data r2.1
      let r4 := drain_loop cfg fd fuel r3.1
      (r4.1, r2.2 ++ r3.2 :: r4.2)

/-- `decklink_consumer::RenderAudioSamples` (lines 383-425).  On a preroll
invocation the counter is pre-incremented and compared with `buffer_size_`
(`= config_.buffer_depth()`); below the threshold a silence block is
synthesised whose size indexes the cadence table with the integer value of
the BOOL parameter `preroll` (1 in this branch) modulo the table length —
exactly as the source line 399 writes it.  On a steady-state invocation all
buffered audio frames are drained. -/
def RenderAudioSamples (cfg : configuration) (fd : video_format_desc)
    (preroll : Bool) (s : ConsumerState) : ConsumerState × HResult × List Event :=
  if !s.is_running then (s, HResult.E_FAIL, [])
  else if preroll then
    let s1 := { s with preroll_count := s.preroll_count + 1 }
    if cfg.buffer_depth ≤ s1.preroll_count then
      (s1, HResult.S_OK, [Event.endedAudioPreroll, Event.startedPlayback])
    else
      let idx := (if preroll then 1 else 0) % fd.audio_cadence.length
      let silence : List Int :=
        List.replicate (fd.audio_cadence.getD idx 0 * fd.audio_channels) 0
      let r := schedule_next_audio cfg fd silence s1
      (r.1, HResult.S_OK, [r.2])
  else
    let r := drain_loop cfg fd (s.audio_frame_buffer.length + 1) s
    (r.1, HResult.S_OK, r.2)

/-- Result of one `ScheduledFrameCompleted` invocation: an immediate E_FAIL
return (engine not running; the carried state is the unchanged input), a
block inside the waiting `video_frame_buffer_.pop` on an empty queue (the
carried state is the state at the blocking point), or a normal S_OK return
with the new state and the emitted events. -/
inductive VideoOutcome
  | fail (s : ConsumerState)
  | blocked (s : ConsumerState)
  | ok (s : ConsumerState) (events : List Event)
deriving DecidableEq, Repr

/-- Whether a `VideoOutcome` is a completed S_OK return. -/
def VideoOutcome.isOk : VideoOutcome → Bool
  | VideoOutcome.ok _ _ => true
  | _ => false

/-- The displayed-late branch of `ScheduledFrameCompleted` (lines 348-356):
on a displayed-late classification both counters are advanced by one extra
unit — the video timestamp by one frame duration, the audio counter by the
completed frame's sample-frame count (`audio_data().size() / audio_channels`,
where `completed_audio_size` is that `size()`); every other classification
leaves the state untouched here (dropped/flushed only set a diagnostic
tag). -/
def late_adjust (fd : video_format_desc) (completed_audio_size : Nat)
    (result : BMDCompletionResult) (s : ConsumerState) : ConsumerState :=
  if result = BMDCompletionResult.displayedLate then
    { s with
        video_scheduled := s.video_scheduled + fd.duration,
        audio_scheduled :=
          s.audio_scheduled + (completed_audio_size / fd.audio_channels : Nat) }
  else s

/-- `decklink_consumer::ScheduledFrameCompleted` (lines 341-381): after the
running check and the displayed-late adjustment, the oldest frame is popped
from the video slot buffer — `tbb::concurrent_bounded_queue::pop`, which
waits on an empty queue (`blocked`) — then `try_completion` retries any
pending send, and the popped frame is scheduled. -/
def ScheduledFrameCompleted (fd : video_format_desc) (completed_audio_size : Nat)
    (result : BMDCompletionResult) (s : ConsumerState) : VideoOutcome :=
  if !s.is_running then VideoOutcome.fail s
  else
    let s1 := late_adjust fd completed_audio_size result s
    match s1.video_frame_buffer with
    | [] => VideoOutcome.blocked s1
    | frame :: rest =>
      let s2 := { s1 with video_frame_buffer := rest }
      let r3 := try_completion fd s2
      let r4 := schedule_next_video fd frame r3.1
      VideoOutcome.ok r4.1 (r3.2 ++ [r4.2])

/-- Error a `send` call raises synchronously: the re-raised latched exception
(lines 454-460) or the "Is not running" exception (lines 462-463). -/
inductive SendError
  | rethrown
  | not_running
deriving DecidableEq, Repr

/-- What a `send` call returns: a synchronously raised error, a ready future
(fast path), or an unresolved future backed by the registered pending send
(slow path). -/
inductive SendResult
  | threw (e : SendError)
  | readyFuture (v : Bool)
  | pendingFuture
deriving DecidableEq, Repr

/-- `decklink_consumer::send` (lines 452-488): consult the exception latch,
then the running flag; then run `enqueue_task` once — on completion return a
ready future, otherwise register the task (with its already-mutated captured
flags) in `send_completion_` and return its future. -/
def send (cfg : configuration) (fd : video_format_desc) (frame : const_frame)
    (s : ConsumerState) : ConsumerState × SendResult × List Event :=
  match s.exception with
  | some _ => (s, SendResult.threw SendError.rethrown, [])
  | none =>
    if !s.is_running then (s, SendResult.threw SendError.not_running, [])
    else
      let p0 : PendingSend := ⟨frame, !cfg.embedded_audio, false⟩
      let r := enqueue_task fd p0 s.video_frame_buffer s.audio_frame_buffer
      if r.done then
        ({ s with video_frame_buffer := r.vbuf, audio_frame_buffer := r.abuf },
          SendResult.readyFuture true, enqueue_events p0 r.task)
      else
        ({ s with video_frame_buffer := r.vbuf, audio_frame_buffer := r.abuf,
                  send_completion := some r.task },
          SendResult.pendingFuture, enqueue_events p0 r.task)

/-- The consumer state as the constructor's member initialisers leave it
before the constructor body's scheduling work (lines 183-216):
running, zero counters, empty buffers, no latched exception, no pending send. -/
def initial_state : ConsumerState :=
  ⟨true, 0, 0, 0, [], [], [], none, none⟩

/-- The `for(int n = 0; n < buffer_size_; ++n) schedule_next_video(empty)`
loop of the constructor (lines 238-239), iterated a given number of times. -/
def schedule_empty_loop (fd : video_format_desc) :
    Nat → ConsumerState → ConsumerState × List Event
  | 0, s => (s, [])
  | n + 1, s =>
    let r := schedule_next_video fd const_frame.empty s
    let r2 := schedule_empty_loop fd n r.1
    (r2.1, r.2 :: r2.2)

/-- The `decklink_consumer` constructor body (lines 204-243), keeping its
observable scheduling work: BeginAudioPreroll when embedded audio is enabled,
then `buffer_depth` (clamped below at 0 by the `for` loop) empty placeholder
frames, then StartScheduledPlayback when embedded audio is disabled. -/
def construct (cfg : configuration) (fd : video_format_desc) :
    ConsumerState × List Event :=
  let evs0 : List Event := if cfg.embedded_audio then [Event.beganAudioPreroll] else []
  let r := schedule_empty_loop fd cfg.buffer_depth.toNat initial_state
  let evs2 : List Event := if cfg.embedded_audio then [] else [Event.startedPlayback]
  (r.1, evs0 ++ r.2 ++ evs2)

/-- `decklink_consumer::ScheduledPlaybackHasStopped` (lines 334-339). -/
def ScheduledPlaybackHasStopped (s : ConsumerState) : ConsumerState × HResult :=
  ({ s with is_running := false }, HResult.S_OK)

/-- One driver callback arriving at the engine: a video-completion callback
with its classification and the completed frame's audio sample count, or an
audio-render callback with its preroll flag. -/
inductive RunEvent
  | videoCompleted (result : BMDCompletionResult) (completed_audio_size : Nat)
  | audioRender (preroll : Bool)
deriving DecidableEq, Repr

/-- Apply one callback to the state.  A blocked video callback has performed
no observable action yet (it is waiting inside the queue pop), so it
contributes no events; its partial state carries over. -/
def run_step (cfg : configuration) (fd : video_format_desc) (s : ConsumerState) :
    RunEvent → ConsumerState × List Event
  | RunEvent.videoCompleted result a =>
    match ScheduledFrameCompleted fd a result s with
    | VideoOutcome.fail s1 => (s1, [])
    | VideoOutcome.blocked s1 => (s1, [])
    | VideoOutcome.ok s1 evs => (s1, evs)
  | RunEvent.audioRender p =>
    let r := RenderAudioSamples cfg fd p s
    (r.1, r.2.2)

/-- A sequence of driver callbacks applied in order, with the emitted events
concatenated. -/
def run (cfg : configuration) (fd : video_format_desc) :
    List RunEvent → ConsumerState → ConsumerState × List Event
  | [], s => (s, [])
  | e :: es, s =>
    let r := run_step cfg fd s e
    let r2 := run cfg fd es r.1
    (r2.1, r.2 ++ r2.2)

/-- Whether an event is a future resolution. -/
def is_resolution : Event → Bool
  | Event.resolvedFuture _ => true
  | _ => false

/-- How many future resolutions an event list contains. -/
def resolution_count (evs : List Event) : Nat :=
  evs.countP is_resolution

/-- The frames handed to `ScheduleVideoFrame`, in order. -/
def scheduled_video_frames (evs : List Event) : List const_frame :=
  evs.filterMap fun e =>
    match e with
    | Event.scheduledVideo f _ _ _ => some f
    | _ => none

/-- A concrete NTSC-like 29.97 fps output format (cadence as the spec's
repeating non-integer-ratio pattern), used by witnesses and counterexamples.
`size` 16 corresponds to a 4-pixel test frame. -/
def ntsc_fd : video_format_desc :=
  ⟨16, 1001, 30000, 2, [1602, 1601, 1602, 1601, 1602], 48000, false⟩

/-- A consumer state whose engine has stopped running. -/
def stopped_state : ConsumerState :=
  { initial_state with is_running := false }

/-- The video-schedule events of the constructor's priming loop are exactly
`n` empty frames. -/
theorem scheduled_video_frames_empty_loop (fd : video_format_desc) :
    ∀ (n : Nat) (s : ConsumerState),
      scheduled_video_frames (schedule_empty_loop fd n s).2
        = List.replicate n const_frame.empty := by
  intro n
  induction n with
  | zero => intro s; simp [schedule_empty_loop, scheduled_video_frames]
  | succ n ih =>
    intro s
    simp [schedule_empty_loop, schedule_next_video, scheduled_video_frames,
      List.replicate_succ] at *
    exact ih _

/-- C6: construction schedules exactly `buffer_depth` empty video frames
before any real frame is scheduled (the constructor schedules nothing else),
with `buffer_depth = base + (0 if low latency else 1) + (1 if embedded audio
else 0)`. -/
theorem c6_construction_schedules_buffer_depth_empty_frames
    (cfg : configuration) (fd : video_format_desc) (h : 0 ≤ cfg.buffer_depth) :
    ((scheduled_video_frames (construct cfg fd).2).length : Int) = cfg.buffer_depth
    ∧ (∀ f ∈ scheduled_video_frames (construct cfg fd).2, f = const_frame.empty)
    ∧ cfg.buffer_depth
        = cfg.base_buffer_depth
          + (if cfg.latency = latency_t.low_latency then 0 else 1)
          + (if cfg.embedded_audio then 1 else 0) := by
  have hframes : scheduled_video_frames (construct cfg fd).2
      = List.replicate cfg.buffer_depth.toNat const_frame.empty := by
    unfold construct scheduled_video_frames
    cases hemb : cfg.embedded_audio <;>
      simp [hemb, List.filterMap_append,
        ← scheduled_video_frames_empty_loop fd cfg.buffer_depth.toNat initial_state,
        scheduled_video_frames]
  refine ⟨?_, ?_, rfl⟩
  · rw [hframes, List.length_replicate, Int.toNat_of_nonneg h]
  · intro f hf
    rw [hframes] at hf
    exact List.eq_of_mem_replicate hf

/-- Witness for C6 at the default configuration (buffer_depth 5). -/
theorem c6_witness :
    ((scheduled_video_frames (construct default_configuration ntsc_fd).2).length : Int)
        = default_configuration.buffer_depth
    ∧ (∀ f ∈ scheduled_video_frames (construct default_configuration ntsc_fd).2,
        f = const_frame.empty)
    ∧ default_configuration.buffer_depth
        = default_configuration.base_buffer_depth
          + (if default_configuration.latency = latency_t.low_latency then 0 else 1)
          + (if default_configuration.embedded_audio then 1 else 0) :=
  c6_construction_schedules_buffer_depth_empty_frames default_configuration ntsc_fd
    (by decide)

/-- C7: a `send` on an engine holding a latched exception, or on one that is
no longer running, fails synchronously with an error and leaves the whole
state — in particular both slot buffers — unchanged. -/
theorem c7_send_fails_fast_without_enqueue (cfg : configuration)
    (fd : video_format_desc) (frame : const_frame) (s : ConsumerState)
    (h : s.exception ≠ none ∨ s.is_running = false) :
    (∃ e, (send cfg fd frame s).2.1 = SendResult.threw e)
    ∧ (send cfg fd frame s).1 = s
    ∧ (send cfg fd frame s).1.video_frame_buffer = s.video_frame_buffer
    ∧ (send cfg fd frame s).1.audio_frame_buffer = s.audio_frame_buffer := by
  cases hexc : s.exception with
  | some e => exact ⟨⟨SendError.rethrown, by simp [send, hexc]⟩, by simp [send, hexc],
      by simp [send, hexc], by simp [send, hexc]⟩
  | none =>
    have hrun : s.is_running = false := by
      rcases h with h | h
      · exact absurd hexc h
      · exact h
    exact ⟨⟨SendError.not_running, by simp [send, hexc, hrun]⟩,
      by simp [send, hexc, hrun], by simp [send, hexc, hrun],
      by simp [send, hexc, hrun]⟩

/-- Witness for C7 on a stopped engine. -/
theorem c7_witness :
    (∃ e, (send default_configuration ntsc_fd const_frame.empty stopped_state).2.1
        = SendResult.threw e)
    ∧ (send default_configuration ntsc_fd const_frame.empty stopped_state).1
        = stopped_state
    ∧ (send default_configuration ntsc_fd const_frame.empty
          stopped_state).1.video_frame_buffer = stopped_state.video_frame_buffer
    ∧ (send default_configuration ntsc_fd const_frame.empty
          stopped_state).1.audio_frame_buffer = stopped_state.audio_frame_buffer :=
  c7_send_fails_fast_without_enqueue default_configuration ntsc_fd const_frame.empty
    stopped_state (Or.inr rfl)

/-- C9: when the source frame's image byte length differs from the expected
frame size, `GetBytes` returns a zero-filled buffer of the expected size,
whatever the key-only flag — the blank-frame fallback precedes alpha
extraction.  The cache hypothesis covers every `data_` content this branch
can ever have produced (empty on a fresh adapter, already zero-filled after a
previous call), so the property is closed under repeated calls. -/
theorem c9_mismatch_blank_fallback (fd : video_format_desc) (fr : const_frame)
    (key_only : Bool) (d0 : List Nat)
    (h_mismatch : fr.image_data.length ≠ fd.size)
    (h_data : d0 = [] ∨ d0 = List.replicate fd.size 0) :
    (GetBytes fd ⟨fr, key_only, d0⟩).2 = List.replicate fd.size 0
    ∧ (GetBytes fd ⟨fr, key_only, d0⟩).1
        = ⟨fr, key_only, List.replicate fd.size 0⟩ := by
  have hres : resize_zero d0 fd.size = List.replicate fd.size 0 := by
    rcases h_data with h | h <;> subst h <;>
      simp [resize_zero, List.take_replicate]
  constructor <;> simp [GetBytes, h_mismatch, hres]

/-- Witness for C9: a 3-byte image against a 16-byte format, key-only on. -/
theorem c9_witness :
    (GetBytes ntsc_fd ⟨⟨[1, 2, 3], []⟩, true, []⟩).2 = List.replicate ntsc_fd.size 0
    ∧ (GetBytes ntsc_fd ⟨⟨[1, 2, 3], []⟩, true, []⟩).1
        = ⟨⟨[1, 2, 3], []⟩, true, List.replicate ntsc_fd.size 0⟩ :=
  c9_mismatch_blank_fallback ntsc_fd ⟨[1, 2, 3], []⟩ true [] (by decide) (Or.inl rfl)

/-- C10: when the running flag is false, both callbacks return E_FAIL
immediately with the state untouched (the returned state is the input state
itself: counters, preroll count and both slot buffers are unchanged). -/
theorem c10_stopped_callbacks_fail_fast (cfg : configuration)
    (fd : video_format_desc) (s : ConsumerState) (h : s.is_running = false) :
    (∀ (a : Nat) (result : BMDCompletionResult),
        ScheduledFrameCompleted fd a result s = VideoOutcome.fail s)
    ∧ (∀ preroll : Bool,
        RenderAudioSamples cfg fd preroll s = (s, HResult.E_FAIL, [])) := by
  constructor
  · intro a result; simp [ScheduledFrameCompleted, h]
  · intro preroll; simp [RenderAudioSamples, h]

/-- Witness for C10 on a stopped engine. -/
theorem c10_witness :
    (∀ (a : Nat) (result : BMDCompletionResult),
        ScheduledFrameCompleted ntsc_fd a result stopped_state
          = VideoOutcome.fail stopped_state)
    ∧ (∀ preroll : Bool,
        RenderAudioSamples default_configuration ntsc_fd preroll stopped_state
          = (stopped_state, HResult.E_FAIL, [])) :=
  c10_stopped_callbacks_fail_fast default_configuration ntsc_fd stopped_state rfl

/-- The alpha shuffle maps a buffer split at a 4-byte pixel boundary to the
shuffles of the two halves, and preserves the length of whole-pixel
buffers. -/
theorem aligned_memshfl_alpha_append :
    ∀ (i : Nat) (pre l : List Nat), pre.length = 4 * i →
      aligned_memshfl_alpha (pre ++ l)
          = aligned_memshfl_alpha pre ++ aligned_memshfl_alpha l
        ∧ (aligned_memshfl_alpha pre).length = pre.length := by
  intro i
  induction i with
  | zero =>
    intro pre l hlen
    have : pre = [] := List.eq_nil_of_length_eq_zero (by omega)
    subst this
    simp [aligned_memshfl_alpha]
  | succ i ih =>
    intro pre l hlen
    match pre, hlen with
    | p1 :: p2 :: p3 :: p4 :: t, hlen =>
      have ht : t.length = 4 * i := by simp at hlen; omega
      have := ih t l ht
      simp [aligned_memshfl_alpha, this.1, this.2]

/-- C8: in key-only mode, on a frame whose image length matches the expected
size, `GetBytes` emits at each pixel (b,g,r,a) the bytes (a,a,a,a); and the
shuffled buffer is computed once — a second `GetBytes` on the adapter the
first call returned yields the identical adapter and buffer without
recomputation (the `data_` cache is non-empty and is handed back as is). -/
theorem c8_key_only_alpha_and_cached (fd : video_format_desc) (fr : const_frame)
    (pre post : List Nat) (b g r a : Nat) (i : Nat)
    (h_img : fr.image_data = pre ++ b :: g :: r :: a :: post)
    (h_pre : pre.length = 4 * i)
    (h_size : fr.image_data.length = fd.size) :
    (∃ out_pre out_post,
        (GetBytes fd (mk_decklink_frame fr true)).2
            = out_pre ++ a :: a :: a :: a :: out_post
        ∧ out_pre.length = 4 * i)
    ∧ GetBytes fd (GetBytes fd (mk_decklink_frame fr true)).1
        = GetBytes fd (mk_decklink_frame fr true) := by
  have hsplit := aligned_memshfl_alpha_append i pre (b :: g :: r :: a :: post) h_pre
  have hval : aligned_memshfl_alpha fr.image_data
      = aligned_memshfl_alpha pre
        ++ a :: a :: a :: a :: aligned_memshfl_alpha post := by
    rw [h_img, hsplit.1]
    rfl
  have h1 : GetBytes fd (mk_decklink_frame fr true)
      = (⟨fr, true, aligned_memshfl_alpha fr.image_data⟩,
          aligned_memshfl_alpha fr.image_data) := by
    simp [GetBytes, mk_decklink_frame, h_size]
  constructor
  · exact ⟨aligned_memshfl_alpha pre, aligned_memshfl_alpha post,
      by rw [h1, hval], hsplit.2.trans h_pre⟩
  · have hne : (aligned_memshfl_alpha fr.image_data).isEmpty = false := by
      rw [hval]
      cases aligned_memshfl_alpha pre <;> simp
    rw [h1]
    simp [GetBytes, h_size, hne]

/-- Witness for C8: a 16-byte four-pixel frame, checking pixel index 1. -/
theorem c8_witness :
    (∃ out_pre out_post,
        (GetBytes ntsc_fd
            (mk_decklink_frame ⟨[9, 8, 7, 5, 1, 2, 3, 4, 0, 0, 0, 9, 3, 3, 3, 7], []⟩
              true)).2
            = out_pre ++ 4 :: 4 :: 4 :: 4 :: out_post
        ∧ out_pre.length = 4 * 1)
    ∧ GetBytes ntsc_fd
        (GetBytes ntsc_fd
            (mk_decklink_frame ⟨[9, 8, 7, 5, 1, 2, 3, 4, 0, 0, 0, 9, 3, 3, 3, 7], []⟩
              true)).1
        = GetBytes ntsc_fd
            (mk_decklink_frame ⟨[9, 8, 7, 5, 1, 2, 3, 4, 0, 0, 0, 9, 3, 3, 3, 7], []⟩
              true) :=
  c8_key_only_alpha_and_cached ntsc_fd
    ⟨[9, 8, 7, 5, 1, 2, 3, 4, 0, 0, 0, 9, 3, 3, 3, 7], []⟩
    [9, 8, 7, 5] [0, 0, 0, 9, 3, 3, 3, 7] 1 2 3 4 1 rfl rfl rfl

/-- The state after a number of consecutive preroll audio callbacks. -/
def preroll_iter (cfg : configuration) (fd : video_format_desc) :
    Nat → ConsumerState → ConsumerState
  | 0, s => s
  | n + 1, s => preroll_iter cfg fd n (RenderAudioSamples cfg fd true s).1

/-- Each preroll callback on a running engine keeps it running and increments
the preroll counter by exactly one, whether it schedules silence or ends the
preroll. -/
theorem preroll_iter_spec (cfg : configuration) (fd : video_format_desc) :
    ∀ (k : Nat) (s : ConsumerState), s.is_running = true →
      (preroll_iter cfg fd k s).is_running = true
      ∧ (preroll_iter cfg fd k s).preroll_count = s.preroll_count + k := by
  intro k
  induction k with
  | zero => intro s h; simp [preroll_iter, h]
  | succ k ih =>
    intro s h
    have hstep : (RenderAudioSamples cfg fd true s).1.is_running = true
        ∧ (RenderAudioSamples cfg fd true s).1.preroll_count
            = s.preroll_count + 1 := by
      unfold RenderAudioSamples
      rw [h]
      simp only [Bool.not_true, Bool.false_eq_true, if_false, if_true]
      split
      · simp
      · simp [schedule_next_audio]
    have := ih (RenderAudioSamples cfg fd true s).1 hstep.1
    refine ⟨by simpa [preroll_iter] using this.1, ?_⟩
    simp only [preroll_iter, this.2, hstep.2]
    omega

/-- C2: with embedded audio enabled, starting from a fresh engine, the k-th
preroll audio callback with k below `buffer_depth` schedules silence and does
not end the preroll, and the `buffer_depth`-th one issues EndAudioPreroll and
starts scheduled playback.  Preroll callbacks cease once EndAudioPreroll is
issued (driver contract), so the invocations modelled here are all that
occur. -/
theorem c2_preroll_ends_exactly_at_buffer_depth (cfg : configuration)
    (fd : video_format_desc) (s : ConsumerState)
    (h_emb : cfg.embedded_audio = true) (h_run : s.is_running = true)
    (h_cnt : s.preroll_count = 0) (h_bd : 1 ≤ cfg.buffer_depth) :
    (∀ k : Nat, 1 ≤ k → (k : Int) < cfg.buffer_depth →
      Event.endedAudioPreroll
        ∉ (RenderAudioSamples cfg fd true (preroll_iter cfg fd (k - 1) s)).2.2)
    ∧ ∀ k : Nat, 1 ≤ k → (k : Int) = cfg.buffer_depth →
        (RenderAudioSamples cfg fd true (preroll_iter cfg fd (k - 1) s)).2.2
          = [Event.endedAudioPreroll, Event.startedPlayback] := by
  have hstate : ∀ k : Nat,
      (preroll_iter cfg fd k s).is_running = true
      ∧ (preroll_iter cfg fd k s).preroll_count = (k : Int) := by
    intro k
    have := preroll_iter_spec cfg fd k s h_run
    exact ⟨this.1, by rw [this.2, h_cnt]; omega⟩
  constructor
  · intro k hk1 hklt
    have hs := hstate (k - 1)
    unfold RenderAudioSamples
    rw [hs.1]
    have hcount : (preroll_iter cfg fd (k - 1) s).preroll_count + 1 = (k : Int) := by
      rw [hs.2]; omega
    simp only [Bool.not_true, Bool.false_eq_true, if_false, if_true, hcount]
    rw [if_neg (by omega)]
    simp [schedule_next_audio]
  · intro k hk1 hkeq
    have hs := hstate (k - 1)
    unfold RenderAudioSamples
    rw [hs.1]
    have hcount : (preroll_iter cfg fd (k - 1) s).preroll_count + 1 = (k : Int) := by
      rw [hs.2]; omega
    simp only [Bool.not_true, Bool.false_eq_true, if_false, if_true, hcount]
    rw [if_pos (by omega)]

/-- Witness for C2 at the default configuration (buffer_depth 5) on a fresh
engine. -/
theorem c2_witness :
    (∀ k : Nat, 1 ≤ k → (k : Int) < default_configuration.buffer_depth →
      Event.endedAudioPreroll
        ∉ (RenderAudioSamples default_configuration ntsc_fd true
            (preroll_iter default_configuration ntsc_fd (k - 1) initial_state)).2.2)
    ∧ ∀ k : Nat, 1 ≤ k → (k : Int) = default_configuration.buffer_depth →
        (RenderAudioSamples default_configuration ntsc_fd true
            (preroll_iter default_configuration ntsc_fd (k - 1) initial_state)).2.2
          = [Event.endedAudioPreroll, Event.startedPlayback] :=
  c2_preroll_ends_exactly_at_buffer_depth default_configuration ntsc_fd initial_state
    rfl rfl rfl (by decide)

/-- A pending-send retry never touches the video scheduling counter:
`try_completion` only moves the slot buffers and the registered task. -/
@[simp] theorem try_completion_video_scheduled (fd : video_format_desc)
    (s : ConsumerState) :
    (try_completion fd s).1.video_scheduled = s.video_scheduled := by
  cases h : s.send_completion with
  | none => simp [try_completion, h]
  | some p =>
    simp only [try_completion, h]
    split <;> simp

/-- A pending-send retry never touches the audio scheduling counter. -/
@[simp] theorem try_completion_audio_scheduled (fd : video_format_desc)
    (s : ConsumerState) :
    (try_completion fd s).1.audio_scheduled = s.audio_scheduled := by
  cases h : s.send_completion with
  | none => simp [try_completion, h]
  | some p =>
    simp only [try_completion, h]
    split <;> simp

/-- A pending-send retry never touches the running flag. -/
@[simp] theorem try_completion_is_running (fd : video_format_desc)
    (s : ConsumerState) :
    (try_completion fd s).1.is_running = s.is_running := by
  cases h : s.send_completion with
  | none => simp [try_completion, h]
  | some p =>
    simp only [try_completion, h]
    split <;> simp

/-- A pending-send retry never touches the preroll counter. -/
@[simp] theorem try_completion_preroll_count (fd : video_format_desc)
    (s : ConsumerState) :
    (try_completion fd s).1.preroll_count = s.preroll_count := by
  cases h : s.send_completion with
  | none => simp [try_completion, h]
  | some p =>
    simp only [try_completion, h]
    split <;> simp

/-- A pending-send retry never touches the exception latch. -/
@[simp] theorem try_completion_exception (fd : video_format_desc)
    (s : ConsumerState) :
    (try_completion fd s).1.exception = s.exception := by
  cases h : s.send_completion with
  | none => simp [try_completion, h]
  | some p =>
    simp only [try_completion, h]
    split <;> simp

/-- The displayed-late adjustment leaves the video slot buffer alone. -/
@[simp] theorem late_adjust_video_frame_buffer (fd : video_format_desc) (a : Nat)
    (result : BMDCompletionResult) (s : ConsumerState) :
    (late_adjust fd a result s).video_frame_buffer = s.video_frame_buffer := by
  unfold late_adjust
  split <;> rfl

/-- The displayed-late adjustment leaves the audio slot buffer alone. -/
@[simp] theorem late_adjust_audio_frame_buffer (fd : video_format_desc) (a : Nat)
    (result : BMDCompletionResult) (s : ConsumerState) :
    (late_adjust fd a result s).audio_frame_buffer = s.audio_frame_buffer := by
  unfold late_adjust
  split <;> rfl

/-- The displayed-late adjustment leaves the running flag alone. -/
@[simp] theorem late_adjust_is_running (fd : video_format_desc) (a : Nat)
    (result : BMDCompletionResult) (s : ConsumerState) :
    (late_adjust fd a result s).is_running = s.is_running := by
  unfold late_adjust
  split <;> rfl

/-- The displayed-late adjustment leaves the pending send alone. -/
@[simp] theorem late_adjust_send_completion (fd : video_format_desc) (a : Nat)
    (result : BMDCompletionResult) (s : ConsumerState) :
    (late_adjust fd a result s).send_completion = s.send_completion := by
  unfold late_adjust
  split <;> rfl

/-- The video counter after the displayed-late adjustment: one extra frame
duration exactly on a displayed-late classification. -/
theorem late_adjust_video_scheduled (fd : video_format_desc) (a : Nat)
    (result : BMDCompletionResult) (s : ConsumerState) :
    (late_adjust fd a result s).video_scheduled
      = s.video_scheduled
        + (if result = BMDCompletionResult.displayedLate then fd.duration else 0) := by
  unfold late_adjust
  split <;> simp

/-- The audio counter after the displayed-late adjustment: one extra
completed-frame sample count exactly on a displayed-late classification. -/
theorem late_adjust_audio_scheduled (fd : video_format_desc) (a : Nat)
    (result : BMDCompletionResult) (s : ConsumerState) :
    (late_adjust fd a result s).audio_scheduled
      = s.audio_scheduled
        + (if result = BMDCompletionResult.displayedLate
            then ((a / fd.audio_channels : Nat) : Int) else 0) := by
  unfold late_adjust
  split <;> simp

/-- C3: from the same starting state with a frame available, a displayed-late
completion leaves the scheduled video timestamp one frame duration, and the
scheduled audio sample counter one completed-frame sample-frame count
(`audio_data().size() / audio_channels`), ahead of what an on-time completion
produces. -/
theorem c3_displayed_late_double_advance (fd : video_format_desc)
    (completed_audio_size : Nat) (s : ConsumerState) (f : const_frame)
    (rest : List const_frame) (h_run : s.is_running = true)
    (h_buf : s.video_frame_buffer = f :: rest) :
    ∃ s_late s_on evs_late evs_on,
      ScheduledFrameCompleted fd completed_audio_size BMDCompletionResult.displayedLate s
        = VideoOutcome.ok s_late evs_late
      ∧ ScheduledFrameCompleted fd completed_audio_size BMDCompletionResult.completed s
        = VideoOutcome.ok s_on evs_on
      ∧ s_late.video_scheduled = s_on.video_scheduled + fd.duration
      ∧ s_late.audio_scheduled
          = s_on.audio_scheduled + (completed_audio_size / fd.audio_channels : Nat) := by
  unfold ScheduledFrameCompleted
  rw [h_run]
  simp only [Bool.not_true, Bool.false_eq_true, if_false, if_true,
    late_adjust_video_frame_buffer]
  rw [h_buf]
  refine ⟨_, _, _, _, rfl, rfl, ?_, ?_⟩
  · simp [schedule_next_video, late_adjust_video_scheduled]
  · simp [schedule_next_video, late_adjust_audio_scheduled]

/-- Witness for C3: a running state holding one buffered frame, a completed
frame carrying 3202 samples over 2 channels. -/
theorem c3_witness :
    ∃ s_late s_on evs_late evs_on,
      ScheduledFrameCompleted ntsc_fd 3202 BMDCompletionResult.displayedLate
          { initial_state with video_frame_buffer := [const_frame.empty] }
        = VideoOutcome.ok s_late evs_late
      ∧ ScheduledFrameCompleted ntsc_fd 3202 BMDCompletionResult.completed
          { initial_state with video_frame_buffer := [const_frame.empty] }
        = VideoOutcome.ok s_on evs_on
      ∧ s_late.video_scheduled = s_on.video_scheduled + ntsc_fd.duration
      ∧ s_late.audio_scheduled
          = s_on.audio_scheduled + (3202 / ntsc_fd.audio_channels : Nat) :=
  c3_displayed_late_double_advance ntsc_fd 3202
    { initial_state with video_frame_buffer := [const_frame.empty] }
    const_frame.empty [] rfl rfl

/-- A compact output format whose cadence table has the NTSC alternating
pattern scaled down ([3,2,3,2,3], 2 channels): consecutive entries of the
repeating sequence always differ, which makes the constant cadence index
observable. -/
def small_cadence_fd : video_format_desc :=
  ⟨16, 1001, 30000, 2, [3, 2, 3, 2, 3], 48000, false⟩

/-- C4, evaluation at the failing input: the first and the second preroll
audio callback of a fresh engine on `small_cadence_fd` both synthesise a
silence block of `audio_cadence[1] = 2` sample frames — the cadence index is
`preroll % audio_cadence.size()` where `preroll` is the BOOL callback
parameter (integer value 1 in this branch), source line 399 — whereas the
claimed repeating sequence `audio_cadence[n mod 5]` yields different sizes on
consecutive invocations (entry 2 of the table is 3, not 2).  The claim
describes the intended cadence-following behaviour; the code indexes the
table with a constant. -/
theorem c4_constant_cadence_index :
    (RenderAudioSamples default_configuration small_cadence_fd true initial_state).2.2
      = [Event.scheduledAudio (List.replicate (2 * 2) 0) 2 0 48000]
    ∧ (RenderAudioSamples default_configuration small_cadence_fd true
        (preroll_iter default_configuration small_cadence_fd 1 initial_state)).2.2
      = [Event.scheduledAudio (List.replicate (2 * 2) 0) 2 2 48000]
    ∧ small_cadence_fd.audio_cadence.getD
        (2 % small_cadence_fd.audio_cadence.length) 0 = 3 :=
  ⟨rfl, rfl, rfl⟩

/-- C5, counterexample: on a running engine with an empty video slot buffer,
the completion callback does not submit an empty frame without waiting — it
blocks inside the waiting `video_frame_buffer_.pop` and completes nothing. -/
theorem c5_counterexample_blocks_on_empty :
    ScheduledFrameCompleted ntsc_fd 0 BMDCompletionResult.completed initial_state
      = VideoOutcome.blocked initial_state
    ∧ (ScheduledFrameCompleted ntsc_fd 0 BMDCompletionResult.completed
        initial_state).isOk = false :=
  ⟨rfl, rfl⟩

/-- C5 as amended: on every completion callback on a running engine, the
frame submitted for the next scheduled video frame is the oldest frame popped
from the video slot buffer; when the buffer is empty the callback waits for a
frame to arrive instead of scheduling an empty frame. -/
theorem c5_amended_pop_oldest_or_wait (fd : video_format_desc) (a : Nat)
    (result : BMDCompletionResult) (s : ConsumerState)
    (h_run : s.is_running = true) :
    (∀ (f : const_frame) (rest : List const_frame),
        s.video_frame_buffer = f :: rest →
          ∃ s2 evs1 ts,
            ScheduledFrameCompleted fd a result s
              = VideoOutcome.ok s2
                  (evs1 ++ [Event.scheduledVideo f ts fd.duration fd.time_scale]))
    ∧ (s.video_frame_buffer = [] →
        ∃ s1, ScheduledFrameCompleted fd a result s = VideoOutcome.blocked s1) := by
  unfold ScheduledFrameCompleted
  rw [h_run]
  simp only [Bool.not_true, Bool.false_eq_true, if_false, if_true,
    late_adjust_video_frame_buffer]
  constructor
  · intro f rest h_buf
    rw [h_buf]
    exact ⟨_, _,
      (try_completion fd
          { late_adjust fd a result s with video_frame_buffer := rest }).1.video_scheduled,
      rfl⟩
  · intro h_buf
    rw [h_buf]
    exact ⟨_, rfl⟩

/-- Witness for C5 as amended: one buffered frame, on-time completion. -/
theorem c5_witness :
    (∀ (f : const_frame) (rest : List const_frame),
        ({ initial_state with
            video_frame_buffer := [⟨[7], [1, 2]⟩] } : ConsumerState).video_frame_buffer
          = f :: rest →
          ∃ s2 evs1 ts,
            ScheduledFrameCompleted ntsc_fd 0 BMDCompletionResult.completed
                { initial_state with video_frame_buffer := [⟨[7], [1, 2]⟩] }
              = VideoOutcome.ok s2
                  (evs1
                    ++ [Event.scheduledVideo f ts ntsc_fd.duration ntsc_fd.time_scale]))
    ∧ (({ initial_state with
          video_frame_buffer := [⟨[7], [1, 2]⟩] } : ConsumerState).video_frame_buffer
          = [] →
        ∃ s1,
          ScheduledFrameCompleted ntsc_fd 0 BMDCompletionResult.completed
              { initial_state with video_frame_buffer := [⟨[7], [1, 2]⟩] }
            = VideoOutcome.blocked s1) :=
  c5_amended_pop_oldest_or_wait ntsc_fd 0 BMDCompletionResult.completed
    { initial_state with video_frame_buffer := [⟨[7], [1, 2]⟩] } rfl

/-- `try_completion` with no registered task does nothing: no push, no
resolution. -/
theorem try_completion_none (fd : video_format_desc) (s : ConsumerState)
    (h : s.send_completion = none) : try_completion fd s = (s, []) := by
  simp [try_completion, h]

/-- The enqueue task never changes the frame it carries. -/
theorem enqueue_task_frame (fd : video_format_desc) (p : PendingSend)
    (vbuf abuf : List const_frame) :
    (enqueue_task fd p vbuf abuf).task.frame = p.frame := rfl

/-- The captured audio flag never falls back from true. -/
theorem enqueue_task_audio_mono (fd : video_format_desc) (p : PendingSend)
    (vbuf abuf : List const_frame) (h : p.audio_ready = true) :
    (enqueue_task fd p vbuf abuf).task.audio_ready = true := by
  simp [enqueue_task, h]

/-- The captured video flag never falls back from true. -/
theorem enqueue_task_video_mono (fd : video_format_desc) (p : PendingSend)
    (vbuf abuf : List const_frame) (h : p.video_ready = true) :
    (enqueue_task fd p vbuf abuf).task.video_ready = true := by
  simp [enqueue_task, h]

/-- A slot this pending send has already filled is not pushed into again:
with the audio flag set, the audio slot buffer comes back untouched. -/
theorem enqueue_task_audio_skip (fd : video_format_desc) (p : PendingSend)
    (vbuf abuf : List const_frame) (h : p.audio_ready = true) :
    (enqueue_task fd p vbuf abuf).abuf = abuf := by
  simp [enqueue_task, h]

/-- With the video flag set, the video slot buffer comes back untouched. -/
theorem enqueue_task_video_skip (fd : video_format_desc) (p : PendingSend)
    (vbuf abuf : List const_frame) (h : p.video_ready = true) :
    (enqueue_task fd p vbuf abuf).vbuf = vbuf := by
  simp [enqueue_task, h]

/-- A completed enqueue run has both flags set. -/
theorem enqueue_task_done_flags (fd : video_format_desc) (p : PendingSend)
    (vbuf abuf : List const_frame)
    (h : (enqueue_task fd p vbuf abuf).done = true) :
    (enqueue_task fd p vbuf abuf).task.audio_ready = true
    ∧ (enqueue_task fd p vbuf abuf).task.video_ready = true := by
  simp only [enqueue_task] at h ⊢
  exact Bool.and_eq_true _ _ |>.mp h

/-- The transition events of an enqueue run are pushes, never resolutions. -/
theorem resolution_count_enqueue_events (p q : PendingSend) :
    resolution_count (enqueue_events p q) = 0 := by
  unfold enqueue_events
  split <;> split <;> simp [resolution_count, is_resolution]

/-- A false-to-true video flag transition shows up as a video-slot push. -/
theorem enqueue_events_video_mem (p q : PendingSend) (h1 : p.video_ready = false)
    (h2 : q.video_ready = true) :
    Event.pushedVideoSlot p.frame ∈ enqueue_events p q := by
  unfold enqueue_events
  simp [h1, h2]

/-- A false-to-true audio flag transition shows up as an audio-slot push. -/
theorem enqueue_events_audio_mem (p q : PendingSend) (h1 : p.audio_ready = false)
    (h2 : q.audio_ready = true) :
    Event.pushedAudioSlot p.frame ∈ enqueue_events p q := by
  unfold enqueue_events
  simp [h1, h2]

/-- Resolution counts add over concatenation. -/
theorem resolution_count_append (l1 l2 : List Event) :
    resolution_count (l1 ++ l2) = resolution_count l1 + resolution_count l2 := by
  simp [resolution_count]

/-- The future resolves only after both applicable slot acceptances: every
resolution event in the list is preceded by a video-slot push of the frame
and, when embedded audio is enabled, by an audio-slot push of it. -/
def resolution_after_pushes (emb : Bool) (fr : const_frame)
    (evs : List Event) : Prop :=
  ∀ pre e post, evs = pre ++ e :: post → is_resolution e = true →
    Event.pushedVideoSlot fr ∈ pre
    ∧ (emb = true → Event.pushedAudioSlot fr ∈ pre)

/-- A resolution-free list vacuously resolves only after the pushes. -/
theorem rap_of_no_res (emb : Bool) (fr : const_frame) (evs : List Event)
    (h : resolution_count evs = 0) : resolution_after_pushes emb fr evs := by
  intro pre e post heq hres
  have hmem : e ∈ evs := by
    rw [heq]
    exact List.mem_append_right _ (List.mem_cons_self _ _)
  simp only [resolution_count] at h
  exact absurd hres (List.countP_eq_zero.mp h e hmem)

/-- Appending resolution-free events preserves resolution-after-pushes. -/
theorem rap_append_no_res (emb : Bool) (fr : const_frame) (evs evs2 : List Event)
    (h : resolution_after_pushes emb fr evs) (h2 : resolution_count evs2 = 0) :
    resolution_after_pushes emb fr (evs ++ evs2) := by
  intro pre e post heq hres
  have hnot2 : ∀ x ∈ evs2, ¬is_resolution x = true := by
    simp only [resolution_count] at h2
    exact List.countP_eq_zero.mp h2
  rcases List.append_eq_append_iff.mp heq with ⟨a2, ha, hb⟩ | ⟨c2, hc, hd⟩
  · exact absurd hres
      (hnot2 e (by rw [hb]; exact List.mem_append_right _ (List.mem_cons_self _ _)))
  · cases c2 with
    | nil =>
      exact absurd hres (hnot2 e (by
        have : e :: post = evs2 := by simpa using hd
        rw [← this]
        exact List.mem_cons_self _ _))
    | cons x xs =>
      have hx : e = x ∧ post = xs ++ evs2 := by
        have := hd
        simp only [List.cons_append] at this
        exact ⟨by injection this, by injection this⟩
      have hevs : evs = pre ++ e :: xs := by rw [hc, hx.1]
      obtain ⟨hv, ha'⟩ := h pre e xs hevs hres
      exact ⟨hv, ha'⟩

/-- Appending one resolution to a resolution-free list whose pushes have
already happened yields a list that resolves only after the pushes. -/
theorem rap_append_single_res (emb : Bool) (fr : const_frame) (L : List Event)
    (hL : resolution_count L = 0) (hv : Event.pushedVideoSlot fr ∈ L)
    (ha : emb = true → Event.pushedAudioSlot fr ∈ L) (v : Bool) :
    resolution_after_pushes emb fr (L ++ [Event.resolvedFuture v]) := by
  intro pre e post heq hres
  have hnotL : ∀ x ∈ L, ¬is_resolution x = true := by
    simp only [resolution_count] at hL
    exact List.countP_eq_zero.mp hL
  rcases List.append_eq_append_iff.mp heq with ⟨a2, h1, h2⟩ | ⟨c2, h1, h2⟩
  · cases a2 with
    | nil =>
      have hpre : pre = L := by simpa using h1
      exact hpre ▸ ⟨hv, ha⟩
    | cons x xs =>
      exfalso
      have := congrArg List.length h2
      simp at this
  · cases c2 with
    | nil =>
      have hpre : pre = L := by simpa using h1.symm
      exact hpre ▸ ⟨hv, ha⟩
    | cons x xs =>
      exact absurd hres (hnotL e (by
        have hex : e = x := by
          have := h2
          simp only [List.cons_append] at this
          injection this
        rw [h1, hex]
        exact List.mem_append_right _ (List.mem_cons_self _ _)))

/-- The invariant a registered pending send maintains along any callback run,
relative to the events emitted so far (the send call's own events included):
while the task is registered, its frame is the pending frame, each set flag is
backed by a recorded slot push, a missing embedded-audio configuration
pre-satisfies the audio flag, and no resolution has been emitted; once the
task is gone, exactly one resolution was emitted (at most), and every
resolution came after the pushes. -/
def pending_inv (emb : Bool) (fr : const_frame) (s : ConsumerState)
    (evs : List Event) : Prop :=
  match s.send_completion with
  | some p =>
      p.frame = fr
      ∧ (p.video_ready = true → Event.pushedVideoSlot fr ∈ evs)
      ∧ (emb = true → p.audio_ready = true → Event.pushedAudioSlot fr ∈ evs)
      ∧ (emb = false → p.audio_ready = true)
      ∧ resolution_count evs = 0
  | none =>
      resolution_count evs ≤ 1 ∧ resolution_after_pushes emb fr evs

/-- The invariant only reads the registered task, so it transfers between
states with the same `send_completion`. -/
theorem pending_inv_congr (emb : Bool) (fr : const_frame)
    (s s' : ConsumerState) (evs : List Event)
    (h : s'.send_completion = s.send_completion)
    (hinv : pending_inv emb fr s evs) : pending_inv emb fr s' evs := by
  unfold pending_inv at *
  rw [h]
  exact hinv

/-- Appending resolution-free events preserves the invariant. -/
theorem pending_inv_append_no_res (emb : Bool) (fr : const_frame)
    (s : ConsumerState) (evs evs2 : List Event)
    (hinv : pending_inv emb fr s evs) (h2 : resolution_count evs2 = 0) :
    pending_inv emb fr s (evs ++ evs2) := by
  unfold pending_inv at *
  cases hsc : s.send_completion with
  | some p =>
    rw [hsc] at hinv
    obtain ⟨hfr, hv, ha, hne, hres⟩ := hinv
    exact ⟨hfr, fun h => List.mem_append_left _ (hv h),
      fun he hp => List.mem_append_left _ (ha he hp), hne,
      by rw [resolution_count_append, hres, h2]⟩
  | none =>
    rw [hsc] at hinv
    exact ⟨by rw [resolution_count_append, h2]; omega,
      rap_append_no_res emb fr evs evs2 hinv.2 h2⟩

/-- Scheduling audio does not touch the registered task. -/
theorem schedule_next_audio_send_completion (cfg : configuration)
    (fd : video_format_desc) (ad : List Int) (s : ConsumerState) :
    (schedule_next_audio cfg fd ad s).1.send_completion = s.send_completion := rfl

/-- Scheduling video does not touch the registered task. -/
theorem schedule_next_video_send_completion (fd : video_format_desc)
    (f : const_frame) (s : ConsumerState) :
    (schedule_next_video fd f s).1.send_completion = s.send_completion := rfl

/-- A scheduled-audio event is not a resolution. -/
theorem is_resolution_schedule_next_audio (cfg : configuration)
    (fd : video_format_desc) (ad : List Int) (s : ConsumerState) :
    is_resolution (schedule_next_audio cfg fd ad s).2 = false := rfl

/-- A scheduled-video event is not a resolution. -/
theorem is_resolution_schedule_next_video (fd : video_format_desc)
    (f : const_frame) (s : ConsumerState) :
    is_resolution (schedule_next_video fd f s).2 = false := rfl

/-- One `try_completion` call preserves the pending-send invariant: it pushes
only as flag transitions it records, and resolves (once, clearing the task)
only when both flags end up true. -/
theorem try_completion_inv (fd : video_format_desc) (emb : Bool)
    (fr : const_frame) (s : ConsumerState) (evs : List Event)
    (h : pending_inv emb fr s evs) :
    pending_inv emb fr (try_completion fd s).1 (evs ++ (try_completion fd s).2) := by
  cases hsc : s.send_completion with
  | none =>
    rw [try_completion_none fd s hsc]
    simpa using h
  | some p =>
    unfold pending_inv at h
    rw [hsc] at h
    obtain ⟨hfr, hvmem, hamem, hnoemb, hres0⟩ := h
    simp only [try_completion, hsc]
    by_cases hdone :
        (enqueue_task fd p s.video_frame_buffer s.audio_frame_buffer).done = true
    · rw [if_pos hdone]
      have hflags := enqueue_task_done_flags fd p _ _ hdone
      have hL0 : resolution_count
          (evs ++ enqueue_events p
            (enqueue_task fd p s.video_frame_buffer s.audio_frame_buffer).task) = 0 := by
        rw [resolution_count_append, hres0, resolution_count_enqueue_events]
      have hLv : Event.pushedVideoSlot fr
          ∈ evs ++ enqueue_events p
              (enqueue_task fd p s.video_frame_buffer s.audio_frame_buffer).task := by
        cases hpv : p.video_ready with
        | true => exact List.mem_append_left _ (hvmem hpv)
        | false =>
          refine List.mem_append_right _ ?_
          have := enqueue_events_video_mem p _ hpv hflags.2
          rwa [hfr] at this
      have hLa : emb = true → Event.pushedAudioSlot fr
          ∈ evs ++ enqueue_events p
              (enqueue_task fd p s.video_frame_buffer s.audio_frame_buffer).task := by
        intro hemb
        cases hpa : p.audio_ready with
        | true => exact List.mem_append_left _ (hamem hemb hpa)
        | false =>
          refine List.mem_append_right _ ?_
          have := enqueue_events_audio_mem p _ hpa hflags.1
          rwa [hfr] at this
      unfold pending_inv
      simp only []
      constructor
      · rw [show evs ++ (enqueue_events p
              (enqueue_task fd p s.video_frame_buffer s.audio_frame_buffer).task
              ++ [Event.resolvedFuture true])
            = (evs ++ enqueue_events p
                (enqueue_task fd p s.video_frame_buffer s.audio_frame_buffer).task)
              ++ [Event.resolvedFuture true] from by simp]
        rw [resolution_count_append, hL0]
        simp [resolution_count, is_resolution]
      · rw [show evs ++ (enqueue_events p
              (enqueue_task fd p s.video_frame_buffer s.audio_frame_buffer).task
              ++ [Event.resolvedFuture true])
            = (evs ++ enqueue_events p
                (enqueue_task fd p s.video_frame_buffer s.audio_frame_buffer).task)
              ++ [Event.resolvedFuture true] from by simp]
        exact rap_append_single_res emb fr _ hL0 hLv hLa true
    · rw [if_neg hdone]
      unfold pending_inv
      simp only []
      refine ⟨by rw [enqueue_task_frame]; exact hfr, ?_, ?_, ?_, ?_⟩
      · intro hq
        cases hpv : p.video_ready with
        | true => exact List.mem_append_left _ (hvmem hpv)
        | false =>
          refine List.mem_append_right _ ?_
          have := enqueue_events_video_mem p _ hpv hq
          rwa [hfr] at this
      · intro hemb hq
        cases hpa : p.audio_ready with
        | true => exact List.mem_append_left _ (hamem hemb hpa)
        | false =>
          refine List.mem_append_right _ ?_
          have := enqueue_events_audio_mem p _ hpa hq
          rwa [hfr] at this
      · intro hembf
        exact enqueue_task_audio_mono fd p _ _ (hnoemb hembf)
      · rw [resolution_count_append, hres0, resolution_count_enqueue_events]

/-- One video-completion callback preserves the pending-send invariant. -/
theorem video_step_inv (cfg : configuration) (fd : video_format_desc)
    (emb : Bool) (fr : const_frame) (result : BMDCompletionResult) (a : Nat)
    (s : ConsumerState) (evs : List Event) (h : pending_inv emb fr s evs) :
    pending_inv emb fr (run_step cfg fd s (RunEvent.videoCompleted result a)).1
      (evs ++ (run_step cfg fd s (RunEvent.videoCompleted result a)).2) := by
  simp only [run_step]
  unfold ScheduledFrameCompleted
  by_cases hrun : s.is_running = true
  · rw [hrun]
    simp only [Bool.not_true, Bool.false_eq_true, if_false, if_true]
    cases hb : (late_adjust fd a result s).video_frame_buffer with
    | nil =>
      simp only [hb]
      rw [List.append_nil]
      exact pending_inv_congr emb fr s _ evs (late_adjust_send_completion fd a result s) h
    | cons f rest =>
      simp only [hb]
      have h2 : pending_inv emb fr
          { late_adjust fd a result s with video_frame_buffer := rest } evs := by
        refine pending_inv_congr emb fr s _ evs ?_ h
        show (late_adjust fd a result s).send_completion = s.send_completion
        exact late_adjust_send_completion fd a result s
      have h3 := try_completion_inv fd emb fr _ evs h2
      have h4 : pending_inv emb fr
          (schedule_next_video fd f
            (try_completion fd
              { late_adjust fd a result s with video_frame_buffer := rest }).1).1
          (evs ++ (try_completion fd
              { late_adjust fd a result s with video_frame_buffer := rest }).2) :=
        pending_inv_congr emb fr _ _ _
          (schedule_next_video_send_completion fd f _) h3
      have h5 := pending_inv_append_no_res emb fr _ _
          [(schedule_next_video fd f
            (try_completion fd
              { late_adjust fd a result s with video_frame_buffer := rest }).1).2]
          h4
          (by simp [resolution_count, is_resolution_schedule_next_video])
      simpa [List.append_assoc] using h5
  · have hrf : s.is_running = false := by
      revert hrun
      cases s.is_running <;> simp
    rw [hrf]
    simp only [Bool.not_false, if_true]
    rw [List.append_nil]
    exact h

/-- The steady-state drain loop preserves the pending-send invariant. -/
theorem drain_inv (cfg : configuration) (fd : video_format_desc)
    (emb : Bool) (fr : const_frame) :
    ∀ (fuel : Nat) (s : ConsumerState) (evs : List Event),
      pending_inv emb fr s evs →
      pending_inv emb fr (drain_loop cfg fd fuel s).1
        (evs ++ (drain_loop cfg fd fuel s).2) := by
  intro fuel
  induction fuel with
  | zero =>
    intro s evs h
    simpa [drain_loop] using h
  | succ fuel ih =>
    intro s evs h
    cases hb : s.audio_frame_buffer with
    | nil => simpa [drain_loop, hb] using h
    | cons frame rest =>
      simp only [drain_loop, hb]
      have h1 : pending_inv emb fr { s with audio_frame_buffer := rest } evs :=
        pending_inv_congr emb fr s _ evs rfl h
      have h2 := try_completion_inv fd emb fr _ evs h1
      have h3 : pending_inv emb fr
          (schedule_next_audio cfg fd frame.audio_data
            (try_completion fd { s with audio_frame_buffer := rest }).1).1
          (evs ++ (try_completion fd { s with audio_frame_buffer := rest }).2) :=
        pending_inv_congr emb fr _ _ _
          (schedule_next_audio_send_completion cfg fd _ _) h2
      have h4 := pending_inv_append_no_res emb fr _ _
          [(schedule_next_audio cfg fd frame.audio_data
            (try_completion fd { s with audio_frame_buffer := rest }).1).2]
          h3
          (by simp [resolution_count, is_resolution_schedule_next_audio])
      have h5 := ih _ _ h4
      simpa [List.append_assoc] using h5

/-- One audio-render callback preserves the pending-send invariant. -/
theorem audio_step_inv (cfg : configuration) (fd : video_format_desc)
    (emb : Bool) (fr : const_frame) (preroll : Bool)
    (s : ConsumerState) (evs : List Event) (h : pending_inv emb fr s evs) :
    pending_inv emb fr (run_step cfg fd s (RunEvent.audioRender preroll)).1
      (evs ++ (run_step cfg fd s (RunEvent.audioRender preroll)).2) := by
  simp only [run_step]
  unfold RenderAudioSamples
  by_cases hrun : s.is_running = true
  · rw [hrun]
    simp only [Bool.not_true, Bool.false_eq_true, if_false, if_true]
    cases preroll with
    | true =>
      simp only [if_true]
      split
      · refine pending_inv_append_no_res emb fr _ evs _ ?_ ?_
        · exact pending_inv_congr emb fr s _ evs rfl h
        · simp [resolution_count, is_resolution]
      · refine pending_inv_append_no_res emb fr _ evs _ ?_ ?_
        · exact pending_inv_congr emb fr s _ evs
            (schedule_next_audio_send_completion cfg fd _ _) h
        · simp [resolution_count, is_resolution_schedule_next_audio]
    | false =>
      simp only [Bool.false_eq_true, if_false]
      exact drain_inv cfg fd emb fr _ s evs h
  · have hrf : s.is_running = false := by
      revert hrun
      cases s.is_running <;> simp
    rw [hrf]
    simp only [Bool.not_false, if_true]
    rw [List.append_nil]
    exact h

/-- Any sequence of driver callbacks preserves the pending-send invariant. -/
theorem run_inv (cfg : configuration) (fd : video_format_desc)
    (emb : Bool) (fr : const_frame) :
    ∀ (es : List RunEvent) (s : ConsumerState) (evs : List Event),
      pending_inv emb fr s evs →
      pending_inv emb fr (run cfg fd es s).1 (evs ++ (run cfg fd es s).2) := by
  intro es
  induction es with
  | nil =>
    intro s evs h
    simpa [run] using h
  | cons e es ih =>
    intro s evs h
    simp only [run]
    have h1 : pending_inv emb fr (run_step cfg fd s e).1
        (evs ++ (run_step cfg fd s e).2) := by
      cases e with
      | videoCompleted result a => exact video_step_inv cfg fd emb fr result a s evs h
      | audioRender p => exact audio_step_inv cfg fd emb fr p s evs h
    have h2 := ih (run_step cfg fd s e).1 _ h1
    simpa [List.append_assoc] using h2

/-- Prepending a resolution event raises the resolution count by one. -/
theorem resolution_count_cons_yes (e : Event) (l : List Event)
    (h : is_resolution e = true) :
    resolution_count (e :: l) = resolution_count l + 1 := by
  simp [resolution_count, List.countP_cons, h]

/-- Prepending a non-resolution event leaves the resolution count alone. -/
theorem resolution_count_cons_no (e : Event) (l : List Event)
    (h : is_resolution e = false) :
    resolution_count (e :: l) = resolution_count l := by
  simp [resolution_count, List.countP_cons, h]

/-- With no registered task the drain loop only pops and schedules: the task
stays absent, the video buffer and running flag are untouched, and no future
resolves. -/
theorem drain_task_none_spec (cfg : configuration) (fd : video_format_desc) :
    ∀ (fuel : Nat) (s : ConsumerState), s.send_completion = none →
      (drain_loop cfg fd fuel s).1.send_completion = none
      ∧ (drain_loop cfg fd fuel s).1.video_frame_buffer = s.video_frame_buffer
      ∧ (drain_loop cfg fd fuel s).1.is_running = s.is_running
      ∧ resolution_count (drain_loop cfg fd fuel s).2 = 0 := by
  intro fuel
  induction fuel with
  | zero =>
    intro s h
    simp [drain_loop, h, resolution_count]
  | succ fuel ih =>
    intro s h
    cases hb : s.audio_frame_buffer with
    | nil => simp [drain_loop, hb, h, resolution_count]
    | cons frame rest =>
      simp only [drain_loop, hb]
      rw [try_completion_none fd _ (show
        ({ s with audio_frame_buffer := rest } : ConsumerState).send_completion = none
          from h)]
      have h2 := ih
        (schedule_next_audio cfg fd frame.audio_data
          { s with audio_frame_buffer := rest }).1
        (by simpa [schedule_next_audio_send_completion] using h)
      refine ⟨h2.1, by rw [h2.2.1]; rfl, by rw [h2.2.2.1]; rfl, ?_⟩
      rw [List.nil_append,
        resolution_count_cons_no _ _ (is_resolution_schedule_next_audio cfg fd _ _)]
      exact h2.2.2.2

/-- With a registered task whose audio slot is already filled and whose video
slot is blocked on a full buffer, the drain loop changes nothing about the
pending send: the task, the video buffer and the running flag survive and no
future resolves. -/
theorem drain_task_tf_spec (cfg : configuration) (fd : video_format_desc)
    (fr : const_frame) :
    ∀ (fuel : Nat) (s : ConsumerState),
      s.send_completion = some ⟨fr, true, false⟩ →
      1 ≤ s.video_frame_buffer.length →
      (drain_loop cfg fd fuel s).1.send_completion = some ⟨fr, true, false⟩
      ∧ (drain_loop cfg fd fuel s).1.video_frame_buffer = s.video_frame_buffer
      ∧ (drain_loop cfg fd fuel s).1.is_running = s.is_running
      ∧ resolution_count (drain_loop cfg fd fuel s).2 = 0 := by
  intro fuel
  induction fuel with
  | zero =>
    intro s h hv
    simp [drain_loop, h, resolution_count]
  | succ fuel ih =>
    intro s h hv
    cases hb : s.audio_frame_buffer with
    | nil => simp [drain_loop, hb, h, resolution_count]
    | cons frame rest =>
      simp only [drain_loop, hb]
      have hnlt : ¬ s.video_frame_buffer.length < 1 := by omega
      have htc1 : (try_completion fd
          { s with audio_frame_buffer := rest }).1.send_completion
            = some (⟨fr, true, false⟩ : PendingSend) := by
        simp [try_completion, h, enqueue_task, try_push, hnlt]
      have htc2 : (try_completion fd
          { s with audio_frame_buffer := rest }).1.video_frame_buffer
            = s.video_frame_buffer := by
        simp [try_completion, h, enqueue_task, try_push, hnlt]
      have htc3 : (try_completion fd
          { s with audio_frame_buffer := rest }).1.is_running = s.is_running := by
        simp [try_completion, h, enqueue_task, try_push, hnlt]
      have htc4 : (try_completion fd { s with audio_frame_buffer := rest }).2 = [] := by
        simp [try_completion, h, enqueue_task, try_push, hnlt, enqueue_events]
      have h2 := ih
        (schedule_next_audio cfg fd frame.audio_data
          (try_completion fd { s with audio_frame_buffer := rest }).1).1
        (by rw [schedule_next_audio_send_completion]; exact htc1)
        (by
          rw [show (schedule_next_audio cfg fd frame.audio_data
              (try_completion fd
                { s with audio_frame_buffer := rest }).1).1.video_frame_buffer
            = (try_completion fd
                { s with audio_frame_buffer := rest }).1.video_frame_buffer from rfl]
          rw [htc2]
          exact hv)
      refine ⟨h2.1, ?_, ?_, ?_⟩
      · rw [h2.2.1]
        rw [show (schedule_next_audio cfg fd frame.audio_data
            (try_completion fd
              { s with audio_frame_buffer := rest }).1).1.video_frame_buffer
          = (try_completion fd
              { s with audio_frame_buffer := rest }).1.video_frame_buffer from rfl]
        exact htc2
      · rw [h2.2.2.1]
        rw [show (schedule_next_audio cfg fd frame.audio_data
            (try_completion fd
              { s with audio_frame_buffer := rest }).1).1.is_running
          = (try_completion fd
              { s with audio_frame_buffer := rest }).1.is_running from rfl]
        exact htc3
      · rw [htc4, List.nil_append,
          resolution_count_cons_no _ _ (is_resolution_schedule_next_audio cfg fd _ _)]
        exact h2.2.2.2

/-- A callback arriving when no send is pending resolves nothing and
registers nothing. -/
theorem run_step_none_spec (cfg : configuration) (fd : video_format_desc)
    (t : ConsumerState) (e : RunEvent) (h : t.send_completion = none) :
    (run_step cfg fd t e).1.send_completion = none
    ∧ resolution_count (run_step cfg fd t e).2 = 0 := by
  cases e with
  | videoCompleted result a =>
    simp only [run_step]
    unfold ScheduledFrameCompleted
    by_cases hrun : t.is_running = true
    · rw [hrun]
      simp only [Bool.not_true, Bool.false_eq_true, if_false, if_true]
      cases hb : (late_adjust fd a result t).video_frame_buffer with
      | nil =>
        simp only [hb]
        exact ⟨(late_adjust_send_completion fd a result t).trans h,
          by simp [resolution_count]⟩
      | cons f rest =>
        simp only [hb]
        have hsc2 : ({ late_adjust fd a result t with
            video_frame_buffer := rest } : ConsumerState).send_completion = none := by
          show (late_adjust fd a result t).send_completion = none
          rw [late_adjust_send_completion]
          exact h
        rw [try_completion_none fd _ hsc2]
        constructor
        · show (schedule_next_video fd f _).1.send_completion = none
          rw [schedule_next_video_send_completion]
          exact hsc2
        · rw [List.nil_append,
            resolution_count_cons_no _ _ (is_resolution_schedule_next_video fd f _)]
          rfl
    · have hrf : t.is_running = false := by
        revert hrun
        cases t.is_running <;> simp
      rw [hrf]
      simp only [Bool.not_false, if_true]
      exact ⟨h, by simp [resolution_count]⟩
  | audioRender p =>
    simp only [run_step]
    unfold RenderAudioSamples
    by_cases hrun : t.is_running = true
    · rw [hrun]
      simp only [Bool.not_true, Bool.false_eq_true, if_false, if_true]
      cases p with
      | true =>
        simp only [if_true]
        split
        · exact ⟨h, by simp [resolution_count, is_resolution]⟩
        · refine ⟨?_, ?_⟩
          · show (schedule_next_audio cfg fd _ _).1.send_completion = none
            rw [schedule_next_audio_send_completion]
            exact h
          · rw [resolution_count_cons_no _ _
              (is_resolution_schedule_next_audio cfg fd _ _)]
            rfl
      | false =>
        simp only [Bool.false_eq_true, if_false]
        have hd := drain_task_none_spec cfg fd (t.audio_frame_buffer.length + 1) t h
        exact ⟨hd.1, hd.2.2.2⟩
    · have hrf : t.is_running = false := by
        revert hrun
        cases t.is_running <;> simp
      rw [hrf]
      simp only [Bool.not_false, if_true]
      exact ⟨h, by simp [resolution_count]⟩

/-- A steady-state audio callback with a pending send whose audio slot is
already filled and whose video slot waits on a full buffer changes nothing
about the pending send. -/
theorem audio_step_tf_spec (cfg : configuration) (fd : video_format_desc)
    (fr : const_frame) (t : ConsumerState)
    (hsc : t.send_completion = some ⟨fr, true, false⟩)
    (hrun : t.is_running = true) (hv : 1 ≤ t.video_frame_buffer.length) :
    (run_step cfg fd t (RunEvent.audioRender false)).1.send_completion
        = some ⟨fr, true, false⟩
    ∧ (run_step cfg fd t (RunEvent.audioRender false)).1.video_frame_buffer
        = t.video_frame_buffer
    ∧ (run_step cfg fd t (RunEvent.audioRender false)).1.is_running = true
    ∧ resolution_count (run_step cfg fd t (RunEvent.audioRender false)).2 = 0 := by
  simp only [run_step]
  unfold RenderAudioSamples
  rw [hrun]
  simp only [Bool.not_true, Bool.false_eq_true, if_false, if_true]
  have hd := drain_task_tf_spec cfg fd fr (t.audio_frame_buffer.length + 1) t hsc hv
  exact ⟨hd.1, hd.2.1, by rw [hd.2.2.1]; exact hrun, hd.2.2.2⟩

/-- One unfolding of the drain loop on a non-empty audio buffer. -/
theorem drain_loop_cons (cfg : configuration) (fd : video_format_desc)
    (fuel : Nat) (s : ConsumerState) (frame : const_frame)
    (rest : List const_frame) (hb : s.audio_frame_buffer = frame :: rest) :
    drain_loop cfg fd (fuel + 1) s
      = ((drain_loop cfg fd fuel
            (schedule_next_audio cfg fd frame.audio_data
              (try_completion fd { s with audio_frame_buffer := rest }).1).1).1,
          (try_completion fd { s with audio_frame_buffer := rest }).2
            ++ (schedule_next_audio cfg fd frame.audio_data
                (try_completion fd { s with audio_frame_buffer := rest }).1).2
              :: (drain_loop cfg fd fuel
                  (schedule_next_audio cfg fd frame.audio_data
                    (try_completion fd
                      { s with audio_frame_buffer := rest }).1).1).2) := by
  conv_lhs => rw [drain_loop]
  simp only [hb]

/-- A steady-state audio callback with a pending send that has filled
neither slot (possible only with embedded audio), a full audio buffer and a
full video buffer: the drain frees the audio slot, the retry fills it (one
audio push), the video slot stays blocked, and no future resolves yet. -/
theorem audio_step_ff_spec (cfg : configuration) (fd : video_format_desc)
    (fr x a : const_frame) (rest : List const_frame) (t : ConsumerState)
    (hsc : t.send_completion = some ⟨fr, false, false⟩)
    (hrun : t.is_running = true)
    (hvb : t.video_frame_buffer = [x])
    (hab : t.audio_frame_buffer = a :: rest)
    (hcap : rest.length < audio_capacity fd) :
    (run_step cfg fd t (RunEvent.audioRender false)).1.send_completion
        = some ⟨fr, true, false⟩
    ∧ (run_step cfg fd t (RunEvent.audioRender false)).1.video_frame_buffer = [x]
    ∧ (run_step cfg fd t (RunEvent.audioRender false)).1.is_running = true
    ∧ resolution_count (run_step cfg fd t (RunEvent.audioRender false)).2 = 0 := by
  simp only [run_step]
  unfold RenderAudioSamples
  rw [hrun]
  simp only [Bool.not_true, Bool.false_eq_true, if_false, if_true]
  rw [drain_loop_cons cfg fd t.audio_frame_buffer.length t a rest hab]
  have h1 : (try_completion fd
      { t with audio_frame_buffer := rest }).1.send_completion
        = some (⟨fr, true, false⟩ : PendingSend) := by
    simp only [try_completion, hsc, enqueue_task, try_push]
    simp [hcap, hvb]
  have h2 : (try_completion fd
      { t with audio_frame_buffer := rest }).1.video_frame_buffer = [x] := by
    simp only [try_completion, hsc, enqueue_task, try_push]
    simp [hcap, hvb]
  have h4 : (try_completion fd { t with audio_frame_buffer := rest }).2
      = [Event.pushedAudioSlot fr] := by
    simp only [try_completion, hsc, enqueue_task, try_push]
    simp [hcap, hvb, enqueue_events]
  have h5 : (schedule_next_audio cfg fd a.audio_data
      (try_completion fd { t with audio_frame_buffer := rest }).1).1.send_completion
        = some (⟨fr, true, false⟩ : PendingSend) := by
    rw [schedule_next_audio_send_completion]
    exact h1
  have h6 : (schedule_next_audio cfg fd a.audio_data
      (try_completion fd { t with audio_frame_buffer := rest }).1).1.video_frame_buffer
        = [x] := by
    show (try_completion fd
      { t with audio_frame_buffer := rest }).1.video_frame_buffer = [x]
    exact h2
  have hd := drain_task_tf_spec cfg fd fr t.audio_frame_buffer.length
    (schedule_next_audio cfg fd a.audio_data
      (try_completion fd { t with audio_frame_buffer := rest }).1).1
    h5 (by rw [h6]; simp)
  refine ⟨hd.1, by rw [hd.2.1]; exact h6, ?_, ?_⟩
  · rw [hd.2.2.1]
    show (try_completion fd { t with audio_frame_buffer := rest }).1.is_running = true
    rw [try_completion_is_running]
    exact hrun
  · rw [h4, List.singleton_append,
      resolution_count_cons_no _ _ (show is_resolution (Event.pushedAudioSlot fr)
        = false from rfl),
      resolution_count_cons_no _ _ (is_resolution_schedule_next_audio cfg fd _ _)]
    exact hd.2.2.2

/-- A steady-state audio callback with a pending send that has filled the
video slot but not the audio slot, on a full audio buffer: the drain frees
the audio slot, the retry fills it, and the future resolves exactly here. -/
theorem audio_step_ft_spec (cfg : configuration) (fd : video_format_desc)
    (fr a : const_frame) (rest : List const_frame) (t : ConsumerState)
    (hsc : t.send_completion = some ⟨fr, false, true⟩)
    (hrun : t.is_running = true)
    (hab : t.audio_frame_buffer = a :: rest)
    (hcap : rest.length < audio_capacity fd) :
    (run_step cfg fd t (RunEvent.audioRender false)).1.send_completion = none
    ∧ resolution_count (run_step cfg fd t (RunEvent.audioRender false)).2 = 1 := by
  simp only [run_step]
  unfold RenderAudioSamples
  rw [hrun]
  simp only [Bool.not_true, Bool.false_eq_true, if_false, if_true]
  rw [drain_loop_cons cfg fd t.audio_frame_buffer.length t a rest hab]
  have h1 : (try_completion fd
      { t with audio_frame_buffer := rest }).1.send_completion = none := by
    simp only [try_completion, hsc, enqueue_task, try_push]
    simp [hcap]
  have h4 : (try_completion fd { t with audio_frame_buffer := rest }).2
      = [Event.pushedAudioSlot fr, Event.resolvedFuture true] := by
    simp only [try_completion, hsc, enqueue_task, try_push]
    simp [hcap, enqueue_events]
  have h5 : (schedule_next_audio cfg fd a.audio_data
      (try_completion fd { t with audio_frame_buffer := rest }).1).1.send_completion
        = none := by
    rw [schedule_next_audio_send_completion]
    exact h1
  have hd := drain_task_none_spec cfg fd t.audio_frame_buffer.length
    (schedule_next_audio cfg fd a.audio_data
      (try_completion fd { t with audio_frame_buffer := rest }).1).1 h5
  refine ⟨hd.1, ?_⟩
  rw [h4, List.cons_append, List.cons_append, List.nil_append,
    resolution_count_cons_no _ _ (show is_resolution (Event.pushedAudioSlot fr)
      = false from rfl),
    resolution_count_cons_yes _ _ (show is_resolution (Event.resolvedFuture true)
      = true from rfl),
    resolution_count_cons_no _ _ (is_resolution_schedule_next_audio cfg fd _ _),
    hd.2.2.2]

/-- A video-completion callback with a pending send whose audio slot is
filled and whose video slot waits on the one-deep buffer: the pop frees the
slot, the retry fills it, and the future resolves exactly here. -/
theorem video_step_resolves (cfg : configuration) (fd : video_format_desc)
    (fr x : const_frame) (t : ConsumerState)
    (hsc : t.send_completion = some ⟨fr, true, false⟩)
    (hrun : t.is_running = true)
    (hvb : t.video_frame_buffer = [x]) :
    resolution_count (run_step cfg fd t
      (RunEvent.videoCompleted BMDCompletionResult.completed 0)).2 = 1 := by
  simp only [run_step]
  unfold ScheduledFrameCompleted
  rw [hrun]
  simp only [Bool.not_true, Bool.false_eq_true, if_false, if_true,
    late_adjust_video_frame_buffer, hvb]
  have htc : (try_completion fd
      { late_adjust fd 0 BMDCompletionResult.completed t with
        video_frame_buffer := ([] : List const_frame) }).2
      = [Event.pushedVideoSlot fr, Event.resolvedFuture true] := by
    simp only [try_completion, late_adjust_send_completion, hsc, enqueue_task,
      try_push]
    simp [enqueue_events]
  rw [htc, List.cons_append, List.cons_append, List.nil_append,
    resolution_count_cons_no _ _ (show is_resolution (Event.pushedVideoSlot fr)
      = false from rfl),
    resolution_count_cons_yes _ _ (show is_resolution (Event.resolvedFuture true)
      = true from rfl),
    resolution_count_cons_no _ _ (is_resolution_schedule_next_video fd _ _)]
  rfl

/-- On each retry, a slot this pending send has already filled is never
pushed into a second time: with the audio flag set, `try_completion` leaves
the audio slot buffer untouched. -/
theorem try_completion_audio_idempotent (fd : video_format_desc)
    (t : ConsumerState) (p : PendingSend) (h : t.send_completion = some p)
    (ha : p.audio_ready = true) :
    (try_completion fd t).1.audio_frame_buffer = t.audio_frame_buffer := by
  simp only [try_completion, h]
  split <;> simp [enqueue_task_audio_skip fd p _ _ ha]

/-- With the video flag set, `try_completion` leaves the video slot buffer
untouched. -/
theorem try_completion_video_idempotent (fd : video_format_desc)
    (t : ConsumerState) (p : PendingSend) (h : t.send_completion = some p)
    (hv : p.video_ready = true) :
    (try_completion fd t).1.video_frame_buffer = t.video_frame_buffer := by
  simp only [try_completion, h]
  split <;> simp [enqueue_task_video_skip fd p _ _ hv]

/-- What the invariant yields at any point of a run: at most one resolution
so far, each one after its pushes. -/
theorem pending_inv_conclusion (emb : Bool) (fr : const_frame)
    (s : ConsumerState) (evs : List Event) (h : pending_inv emb fr s evs) :
    resolution_count evs ≤ 1 ∧ resolution_after_pushes emb fr evs := by
  unfold pending_inv at h
  cases hsc : s.send_completion with
  | some p =>
    rw [hsc] at h
    exact ⟨by rw [h.2.2.2.2]; omega, rap_of_no_res emb fr evs h.2.2.2.2⟩
  | none =>
    rw [hsc] at h
    exact h

/-- A completed enqueue equals the conjunction of its task's flags. -/
theorem enqueue_task_done_eq (fd : video_format_desc) (p : PendingSend)
    (vbuf abuf : List const_frame) :
    (enqueue_task fd p vbuf abuf).done
      = ((enqueue_task fd p vbuf abuf).task.audio_ready
          && (enqueue_task fd p vbuf abuf).task.video_ready) := rfl

/-- With the audio flag initially false, the enqueue's audio outcome is the
audio `try_push`. -/
theorem enqueue_task_audio_eq (fd : video_format_desc) (p : PendingSend)
    (vbuf abuf : List const_frame) (h : p.audio_ready = false) :
    (enqueue_task fd p vbuf abuf).task.audio_ready
        = (try_push (audio_capacity fd) p.frame abuf).1
    ∧ (enqueue_task fd p vbuf abuf).abuf
        = (try_push (audio_capacity fd) p.frame abuf).2 := by
  simp [enqueue_task, h]

/-- With the video flag initially false, the enqueue's video outcome is the
video `try_push`. -/
theorem enqueue_task_video_eq (fd : video_format_desc) (p : PendingSend)
    (vbuf abuf : List const_frame) (h : p.video_ready = false) :
    (enqueue_task fd p vbuf abuf).task.video_ready
        = (try_push 1 p.frame vbuf).1
    ∧ (enqueue_task fd p vbuf abuf).vbuf = (try_push 1 p.frame vbuf).2 := by
  simp [enqueue_task, h]

/-- A failed `try_push` means the queue was full and is unchanged. -/
theorem try_push_fail (cap : Nat) (f : const_frame) (buf : List const_frame)
    (h : (try_push cap f buf).1 = false) :
    cap ≤ buf.length ∧ (try_push cap f buf).2 = buf := by
  by_cases hlt : buf.length < cap
  · simp [try_push, hlt] at h
  · exact ⟨by omega, by simp [try_push, hlt]⟩

/-- A successful `try_push` had room and appended the frame at the back. -/
theorem try_push_succ (cap : Nat) (f : const_frame) (buf : List const_frame)
    (h : (try_push cap f buf).1 = true) :
    buf.length < cap ∧ (try_push cap f buf).2 = buf ++ [f] := by
  by_cases hlt : buf.length < cap
  · exact ⟨hlt, by simp [try_push, hlt]⟩
  · simp [try_push, hlt] at h

/-- Inversion of a slow-path `send`: the exception latch was clear, the
engine running, the one `enqueue_task` run incomplete, and the state and
events are exactly what the registration leaves behind. -/
theorem send_slow_path_spec (cfg : configuration) (fd : video_format_desc)
    (fr : const_frame) (s s0 : ConsumerState) (sendEvs : List Event)
    (h : send cfg fd fr s = (s0, SendResult.pendingFuture, sendEvs)) :
    s.exception = none
    ∧ s.is_running = true
    ∧ s0 = { s with
        video_frame_buffer := (enqueue_task fd ⟨fr, !cfg.embedded_audio, false⟩
          s.video_frame_buffer s.audio_frame_buffer).vbuf,
        audio_frame_buffer := (enqueue_task fd ⟨fr, !cfg.embedded_audio, false⟩
          s.video_frame_buffer s.audio_frame_buffer).abuf,
        send_completion := some (enqueue_task fd ⟨fr, !cfg.embedded_audio, false⟩
          s.video_frame_buffer s.audio_frame_buffer).task }
    ∧ sendEvs = enqueue_events ⟨fr, !cfg.embedded_audio, false⟩
        (enqueue_task fd ⟨fr, !cfg.embedded_audio, false⟩
          s.video_frame_buffer s.audio_frame_buffer).task
    ∧ (enqueue_task fd ⟨fr, !cfg.embedded_audio, false⟩
        s.video_frame_buffer s.audio_frame_buffer).done = false := by
  cases hexc : s.exception with
  | some e => simp [send, hexc] at h
  | none =>
    cases hrun : s.is_running with
    | false => simp [send, hexc, hrun] at h
    | true =>
      simp only [send, hexc, hrun, Bool.not_true, Bool.false_eq_true, if_false,
        if_true] at h
      by_cases hdone : (enqueue_task fd ⟨fr, !cfg.embedded_audio, false⟩
          s.video_frame_buffer s.audio_frame_buffer).done = true
      · rw [if_pos hdone] at h
        simp [Prod.ext_iff] at h
      · rw [if_neg hdone] at h
        rw [Prod.ext_iff, Prod.ext_iff] at h
        exact ⟨rfl, rfl, h.1.symm, h.2.2.symm, by
          revert hdone
          cases (enqueue_task fd ⟨fr, !cfg.embedded_audio, false⟩
            s.video_frame_buffer s.audio_frame_buffer).done <;> simp⟩

/-- Field-wise characterisation of a pending send task. -/
theorem pending_send_eq_mk (q : PendingSend) (f : const_frame) (a v : Bool)
    (h1 : q.frame = f) (h2 : q.audio_ready = a) (h3 : q.video_ready = v) :
    q = ⟨f, a, v⟩ := by
  cases q
  simp_all

/-- The state a slow-path `send` leaves behind satisfies the pending-send
invariant relative to the send call's own events. -/
theorem send_pending_inv (cfg : configuration) (fd : video_format_desc)
    (fr : const_frame) (s s0 : ConsumerState) (sendEvs : List Event)
    (h : send cfg fd fr s = (s0, SendResult.pendingFuture, sendEvs)) :
    pending_inv cfg.embedded_audio fr s0 sendEvs := by
  obtain ⟨hexc, hrun, hs0, hevs, hdone⟩ := send_slow_path_spec cfg fd fr s s0 sendEvs h
  subst hs0
  subst hevs
  exact ⟨enqueue_task_frame fd _ _ _,
    fun hq => enqueue_events_video_mem _ _ rfl hq,
    fun hemb hq => enqueue_events_audio_mem _ _ (by simp [hemb]) hq,
    fun hembf => enqueue_task_audio_mono fd _ _ _ (by simp [hembf]),
    resolution_count_enqueue_events _ _⟩

/-- C1: a `send` that does not resolve synchronously registers a pending
send whose future resolves exactly once.  Along every callback run: at most
one resolution is ever emitted (the registration itself emits none), and in
the full event trace — the send call's slot acceptances followed by the run's
events — every resolution is preceded by the video-slot acceptance of the
frame and, when embedded audio is enabled, by the audio-slot acceptance.
There is a run that does resolve the future (one audio-render and one
video-completion callback).  And on each retry a slot this pending send has
already filled is never pushed into a second time: `try_completion` on a
task with a set flag leaves that slot buffer untouched. -/
theorem c1_pending_send_resolves_once (cfg : configuration)
    (fd : video_format_desc) (fr : const_frame) (s s0 : ConsumerState)
    (sendEvs : List Event)
    (h_send : send cfg fd fr s = (s0, SendResult.pendingFuture, sendEvs))
    (h_vcap : s.video_frame_buffer.length ≤ 1)
    (h_acap : s.audio_frame_buffer.length ≤ audio_capacity fd) :
    resolution_count sendEvs = 0
    ∧ (∀ es : List RunEvent,
        resolution_count (run cfg fd es s0).2 ≤ 1
        ∧ resolution_after_pushes cfg.embedded_audio fr
            (sendEvs ++ (run cfg fd es s0).2))
    ∧ (∃ es : List RunEvent, resolution_count (run cfg fd es s0).2 = 1)
    ∧ (∀ (t : ConsumerState) (p : PendingSend), t.send_completion = some p →
        (p.audio_ready = true →
          (try_completion fd t).1.audio_frame_buffer = t.audio_frame_buffer)
        ∧ (p.video_ready = true →
          (try_completion fd t).1.video_frame_buffer = t.video_frame_buffer)) := by
  obtain ⟨hexc, hrun, hs0, hevs, hdone⟩ :=
    send_slow_path_spec cfg fd fr s s0 sendEvs h_send
  have hinv0 : pending_inv cfg.embedded_audio fr s0 sendEvs :=
    send_pending_inv cfg fd fr s s0 sendEvs h_send
  have hevs0 : resolution_count sendEvs = 0 := by
    rw [hevs]
    exact resolution_count_enqueue_events _ _
  refine ⟨hevs0, ?_, ?_, ?_⟩
  · intro es
    have hI := run_inv cfg fd cfg.embedded_audio fr es s0 sendEvs hinv0
    have hc := pending_inv_conclusion cfg.embedded_audio fr _ _ hI
    refine ⟨?_, hc.2⟩
    have h1 := hc.1
    rw [resolution_count_append, hevs0] at h1
    omega
  · -- liveness: one steady audio callback, then one video completion.
    refine ⟨[RunEvent.audioRender false,
      RunEvent.videoCompleted BMDCompletionResult.completed 0], ?_⟩
    simp only [run]
    rw [resolution_count_append, resolution_count_append]
    have hs0sc : s0.send_completion
        = some (enqueue_task fd ⟨fr, !cfg.embedded_audio, false⟩
            s.video_frame_buffer s.audio_frame_buffer).task := by
      rw [hs0]
    have hs0run : s0.is_running = true := by
      rw [hs0]
      exact hrun
    have hs0vb : s0.video_frame_buffer
        = (enqueue_task fd ⟨fr, !cfg.embedded_audio, false⟩
            s.video_frame_buffer s.audio_frame_buffer).vbuf := by
      rw [hs0]
    have hs0ab : s0.audio_frame_buffer
        = (enqueue_task fd ⟨fr, !cfg.embedded_audio, false⟩
            s.video_frame_buffer s.audio_frame_buffer).abuf := by
      rw [hs0]
    have hfr : (enqueue_task fd ⟨fr, !cfg.embedded_audio, false⟩
        s.video_frame_buffer s.audio_frame_buffer).task.frame = fr :=
      enqueue_task_frame fd _ _ _
    have hdone' : ((enqueue_task fd ⟨fr, !cfg.embedded_audio, false⟩
          s.video_frame_buffer s.audio_frame_buffer).task.audio_ready
        && (enqueue_task fd ⟨fr, !cfg.embedded_audio, false⟩
          s.video_frame_buffer s.audio_frame_buffer).task.video_ready) = false := by
      rw [← enqueue_task_done_eq]
      exact hdone
    by_cases hv1 : (enqueue_task fd ⟨fr, !cfg.embedded_audio, false⟩
        s.video_frame_buffer s.audio_frame_buffer).task.video_ready = true
    · -- video slot accepted at send time; audio still pending.
      have ha1 : (enqueue_task fd ⟨fr, !cfg.embedded_audio, false⟩
          s.video_frame_buffer s.audio_frame_buffer).task.audio_ready = false := by
        revert hdone'
        rw [hv1]
        cases (enqueue_task fd ⟨fr, !cfg.embedded_audio, false⟩
          s.video_frame_buffer s.audio_frame_buffer).task.audio_ready <;> simp
      have hemb : cfg.embedded_audio = true := by
        by_contra hne
        have hembf : cfg.embedded_audio = false := by
          revert hne
          cases cfg.embedded_audio <;> simp
        have hmono := enqueue_task_audio_mono fd ⟨fr, !cfg.embedded_audio, false⟩
          s.video_frame_buffer s.audio_frame_buffer (by simp [hembf])
        simp [hmono] at ha1
      have hpa := enqueue_task_audio_eq fd ⟨fr, !cfg.embedded_audio, false⟩
        s.video_frame_buffer s.audio_frame_buffer (by simp [hemb])
      have hafail := try_push_fail _ _ _ (by rw [← hpa.1]; exact ha1)
      have hab0 : s0.audio_frame_buffer = s.audio_frame_buffer := by
        rw [hs0ab, hpa.2, hafail.2]
      have halen : s.audio_frame_buffer.length = audio_capacity fd :=
        le_antisymm h_acap hafail.1
      obtain ⟨a0, rest0, hcons⟩ :
          ∃ a0 rest0, s.audio_frame_buffer = a0 :: rest0 := by
        cases hx : s.audio_frame_buffer with
        | nil =>
          rw [hx] at halen
          unfold audio_capacity at halen
          revert halen
          split <;> simp
        | cons y ys => exact ⟨y, ys, rfl⟩
      have hrest : rest0.length < audio_capacity fd := by
        rw [hcons] at halen
        simp at halen
        omega
      have htask := pending_send_eq_mk _ fr false true hfr ha1 hv1
      have hsc_lit : s0.send_completion = some (⟨fr, false, true⟩ : PendingSend) := by
        rw [hs0sc, htask]
      have hab0cons : s0.audio_frame_buffer = a0 :: rest0 := by
        rw [hab0, hcons]
      have hstep1 := audio_step_ft_spec cfg fd fr a0 rest0 s0 hsc_lit hs0run
        hab0cons hrest
      have hstep2 := run_step_none_spec cfg fd
        (run_step cfg fd s0 (RunEvent.audioRender false)).1
        (RunEvent.videoCompleted BMDCompletionResult.completed 0) hstep1.1
      rw [hstep1.2, hstep2.2]
      rfl
    · have hv1f : (enqueue_task fd ⟨fr, !cfg.embedded_audio, false⟩
          s.video_frame_buffer s.audio_frame_buffer).task.video_ready = false := by
        revert hv1
        cases (enqueue_task fd ⟨fr, !cfg.embedded_audio, false⟩
          s.video_frame_buffer s.audio_frame_buffer).task.video_ready <;> simp
      have hpv := enqueue_task_video_eq fd ⟨fr, !cfg.embedded_audio, false⟩
        s.video_frame_buffer s.audio_frame_buffer rfl
      have hvfail := try_push_fail _ _ _ (by rw [← hpv.1]; exact hv1f)
      have hvb0 : s0.video_frame_buffer = s.video_frame_buffer := by
        rw [hs0vb, hpv.2, hvfail.2]
      have hvlen : s.video_frame_buffer.length = 1 := le_antisymm h_vcap hvfail.1
      obtain ⟨x0, hx⟩ := List.length_eq_one.mp hvlen
      have hvb0x : s0.video_frame_buffer = [x0] := by
        rw [hvb0, hx]
      by_cases ha1 : (enqueue_task fd ⟨fr, !cfg.embedded_audio, false⟩
          s.video_frame_buffer s.audio_frame_buffer).task.audio_ready = true
      · -- audio slot accepted at send time (or pre-satisfied); video pending.
        have htask := pending_send_eq_mk _ fr true false hfr ha1 hv1f
        have hsc_lit : s0.send_completion
            = some (⟨fr, true, false⟩ : PendingSend) := by
          rw [hs0sc, htask]
        have hstep1 := audio_step_tf_spec cfg fd fr s0 hsc_lit hs0run
          (by rw [hvb0x]; simp)
        have hstep2 := video_step_resolves cfg fd fr x0
          (run_step cfg fd s0 (RunEvent.audioRender false)).1
          hstep1.1 hstep1.2.2.1 (by rw [hstep1.2.1]; exact hvb0x)
        rw [hstep1.2.2.2, hstep2]
        rfl
      · -- neither slot accepted at send time.
        have ha1f : (enqueue_task fd ⟨fr, !cfg.embedded_audio, false⟩
            s.video_frame_buffer s.audio_frame_buffer).task.audio_ready = false := by
          revert ha1
          cases (enqueue_task fd ⟨fr, !cfg.embedded_audio, false⟩
            s.video_frame_buffer s.audio_frame_buffer).task.audio_ready <;> simp
        have hemb : cfg.embedded_audio = true := by
          by_contra hne
          have hembf : cfg.embedded_audio = false := by
            revert hne
            cases cfg.embedded_audio <;> simp
          have hmono := enqueue_task_audio_mono fd ⟨fr, !cfg.embedded_audio, false⟩
            s.video_frame_buffer s.audio_frame_buffer (by simp [hembf])
          simp [hmono] at ha1f
        have hpa := enqueue_task_audio_eq fd ⟨fr, !cfg.embedded_audio, false⟩
          s.video_frame_buffer s.audio_frame_buffer (by simp [hemb])
        have hafail := try_push_fail _ _ _ (by rw [← hpa.1]; exact ha1f)
        have hab0 : s0.audio_frame_buffer = s.audio_frame_buffer := by
          rw [hs0ab, hpa.2, hafail.2]
        have halen : s.audio_frame_buffer.length = audio_capacity fd :=
          le_antisymm h_acap hafail.1
        obtain ⟨a0, rest0, hcons⟩ :
            ∃ a0 rest0, s.audio_frame_buffer = a0 :: rest0 := by
          cases hx2 : s.audio_frame_buffer with
          | nil =>
            rw [hx2] at halen
            unfold audio_capacity at halen
            revert halen
            split <;> simp
          | cons y ys => exact ⟨y, ys, rfl⟩
        have hrest : rest0.length < audio_capacity fd := by
          rw [hcons] at halen
          simp at halen
          omega
        have htask := pending_send_eq_mk _ fr false false hfr ha1f hv1f
        have hsc_lit : s0.send_completion
            = some (⟨fr, false, false⟩ : PendingSend) := by
          rw [hs0sc, htask]
        have hab0cons : s0.audio_frame_buffer = a0 :: rest0 := by
          rw [hab0, hcons]
        have hstep1 := audio_step_ff_spec cfg fd fr x0 a0 rest0 s0 hsc_lit hs0run
          hvb0x hab0cons hrest
        have hstep2 := video_step_resolves cfg fd fr x0
          (run_step cfg fd s0 (RunEvent.audioRender false)).1
          hstep1.1 hstep1.2.2.1 hstep1.2.1
        rw [hstep1.2.2.2, hstep2]
        rfl
  · intro t p hscp
    exact ⟨fun ha => try_completion_audio_idempotent fd t p hscp ha,
      fun hv => try_completion_video_idempotent fd t p hscp hv⟩

/-- A running engine whose both slot buffers are full: a `send` on it takes
the slow path. -/
def full_state : ConsumerState :=
  { initial_state with
      video_frame_buffer := [const_frame.empty],
      audio_frame_buffer := [const_frame.empty] }

/-- Witness for C1: a concrete slow-path `send` (both slots full on an NTSC
engine with embedded audio). -/
theorem c1_witness :
    resolution_count
        (send default_configuration ntsc_fd ⟨[5], [9, 9]⟩ full_state).2.2 = 0
    ∧ (∀ es : List RunEvent,
        resolution_count (run default_configuration ntsc_fd es
            (send default_configuration ntsc_fd ⟨[5], [9, 9]⟩ full_state).1).2 ≤ 1
        ∧ resolution_after_pushes default_configuration.embedded_audio ⟨[5], [9, 9]⟩
            ((send default_configuration ntsc_fd ⟨[5], [9, 9]⟩ full_state).2.2
              ++ (run default_configuration ntsc_fd es
                (send default_configuration ntsc_fd ⟨[5], [9, 9]⟩ full_state).1).2))
    ∧ (∃ es : List RunEvent,
        resolution_count (run default_configuration ntsc_fd es
            (send default_configuration ntsc_fd ⟨[5], [9, 9]⟩ full_state).1).2 = 1)
    ∧ (∀ (t : ConsumerState) (p : PendingSend), t.send_completion = some p →
        (p.audio_ready = true →
          (try_completion ntsc_fd t).1.audio_frame_buffer = t.audio_frame_buffer)
        ∧ (p.video_ready = true →
          (try_completion ntsc_fd t).1.video_frame_buffer
            = t.video_frame_buffer)) :=
  c1_pending_send_resolves_once default_configuration ntsc_fd ⟨[5], [9, 9]⟩
    full_state (send default_configuration ntsc_fd ⟨[5], [9, 9]⟩ full_state).1
    (send default_configuration ntsc_fd ⟨[5], [9, 9]⟩ full_state).2.2
    rfl (by decide) (by decide)
